import Mathlib

/-!
# modules/codec/omxil/mediacodec_jni.c

A shallow embedding of the JNI binding that drives Android's `MediaCodec`
from the player's `mc_api` abstraction, and the properties of it that the
specification states.

Conventions of the embedding.

* A nullable JNI reference or identifier is an `Option Handle`; `none` is `NULL`.
* A C string is the list of its bytes, the terminating NUL left out.
* Every call into the Java side is answered by a `Platform`: one field per
  call, giving what the call returns and whether it raises.  The functions
  return, besides their C result, the list of the calls they issued.
* `CHECK_EXCEPTION()` reads and clears a flag that says whether a Java
  exception is pending.  A call that the code does not follow by
  `CHECK_EXCEPTION()` leaves the flag set when it raises, and the next
  `CHECK_EXCEPTION()` finds it.  Every entry point is entered with the flag
  clear, which is what JNI demands of a native caller before it calls into
  the VM; `Stop` also takes the flag as `Start` leaves it.
* `vlc_mutex_lock`, `msg_*` logging and the deletion of local references
  have no effect on what is modelled and are left out.
-/

namespace MediaCodecJni

/-! ## Basic types -/

/-- A non-null JNI reference, method identifier or field identifier. -/
abbrev Handle := Nat

/-- The bytes of a NUL-terminated string, terminator excluded. -/
abbrev CStr := List Nat

/-- The bytes of an ASCII literal. -/
def ascii (s : String) : CStr := s.data.map Char.toNat

/-- A Java string reference, modelled by the bytes it holds in modified UTF-8. -/
abbrev jstring := Option CStr

/-- The answer of a Java method called through JNI: whether it raised, and the
value the call returned to the native side. -/
structure Ret (α : Type) where
  raised : Bool
  val : α
  deriving DecidableEq, Repr

def BUFFER_FLAG_CODEC_CONFIG : Int := 2
def INFO_OUTPUT_BUFFERS_CHANGED : Int := -3
def INFO_OUTPUT_FORMAT_CHANGED : Int := -2
def INFO_TRY_AGAIN_LATER : Int := -1

/-- Modelled from the spec: `vlc_common.h` is not among the sources. This is the
status the spec calls success. -/
def VLC_SUCCESS : Int := 0

/-- Modelled from the spec: `vlc_common.h` is not among the sources. This is the
"generic operation failure" of the spec, a status distinct from the "not ready"
(0) and "queued" (1) results of the buffer pump. -/
def VLC_EGENERIC : Int := -1

/-! ## The handle table -/

/-- The members of `struct jfields`, used as the offsets `OFF(x)`. -/
inductive JField
  | media_codec_list_class | media_codec_class | media_format_class
  | buffer_info_class | byte_buffer_class
  | tostring
  | get_codec_count | get_codec_info_at | is_encoder | get_capabilities_for_type
  | profile_levels_field | profile_field | level_field
  | get_supported_types | get_name
  | create_by_codec_name | configure | start | stop | flush | release
  | get_output_format
  | get_input_buffers | get_input_buffer
  | get_output_buffers | get_output_buffer
  | dequeue_input_buffer | dequeue_output_buffer | queue_input_buffer
  | release_output_buffer
  | create_video_format | create_audio_format
  | set_integer | set_bytebuffer | get_integer
  | buffer_info_ctor
  | size_field | offset_field | pts_field
  deriving DecidableEq, Repr

/-- The contents of `struct jfields`: one nullable handle per member. -/
abbrev JFields := JField → Option Handle

/-- The store `*(T*)((uint8_t*)&jfields + offset) = v`. -/
def JFields.set (jf : JFields) (offset : JField) (v : Option Handle) : JFields :=
  fun f => if f = offset then v else jf f

inductive Types
  | METHOD | STATIC_METHOD | FIELD
  deriving DecidableEq, Repr

structure classname where
  name : String
  offset : JField
  deriving DecidableEq, Repr

open JField in
/-- The table `classes[]`, without its terminating entry. -/
def classes : List classname := [
  ⟨"android/media/MediaCodecList", media_codec_list_class⟩,
  ⟨"android/media/MediaCodec", media_codec_class⟩,
  ⟨"android/media/MediaFormat", media_format_class⟩,
  ⟨"android/media/MediaFormat", media_format_class⟩,
  ⟨"android/media/MediaCodec$BufferInfo", buffer_info_class⟩,
  ⟨"java/nio/ByteBuffer", byte_buffer_class⟩ ]

/-- One entry of `members[]`; `cls` is the C field `class`. -/
structure member where
  name : String
  sig : String
  cls : String
  offset : JField
  type : Types
  critical : Bool
  deriving DecidableEq, Repr

open JField Types in
/-- The table `members[]`, without its terminating entry. -/
def members : List member := [
  ⟨"toString", "()Ljava/lang/String;", "java/lang/Object", tostring, METHOD, true⟩,

  ⟨"getCodecCount", "()I", "android/media/MediaCodecList", get_codec_count, STATIC_METHOD, true⟩,
  ⟨"getCodecInfoAt", "(I)Landroid/media/MediaCodecInfo;", "android/media/MediaCodecList", get_codec_info_at, STATIC_METHOD, true⟩,

  ⟨"isEncoder", "()Z", "android/media/MediaCodecInfo", is_encoder, METHOD, true⟩,
  ⟨"getSupportedTypes", "()[Ljava/lang/String;", "android/media/MediaCodecInfo", get_supported_types, METHOD, true⟩,
  ⟨"getName", "()Ljava/lang/String;", "android/media/MediaCodecInfo", get_name, METHOD, true⟩,
  ⟨"getCapabilitiesForType", "(Ljava/lang/String;)Landroid/media/MediaCodecInfo$CodecCapabilities;", "android/media/MediaCodecInfo", get_capabilities_for_type, METHOD, true⟩,

  ⟨"profileLevels", "[Landroid/media/MediaCodecInfo$CodecProfileLevel;", "android/media/MediaCodecInfo$CodecCapabilities", profile_levels_field, FIELD, true⟩,
  ⟨"profile", "I", "android/media/MediaCodecInfo$CodecProfileLevel", profile_field, FIELD, true⟩,
  ⟨"level", "I", "android/media/MediaCodecInfo$CodecProfileLevel", level_field, FIELD, true⟩,

  ⟨"createByCodecName", "(Ljava/lang/String;)Landroid/media/MediaCodec;", "android/media/MediaCodec", create_by_codec_name, STATIC_METHOD, true⟩,
  ⟨"configure", "(Landroid/media/MediaFormat;Landroid/view/Surface;Landroid/media/MediaCrypto;I)V", "android/media/MediaCodec", configure, METHOD, true⟩,
  ⟨"start", "()V", "android/media/MediaCodec", start, METHOD, true⟩,
  ⟨"stop", "()V", "android/media/MediaCodec", stop, METHOD, true⟩,
  ⟨"flush", "()V", "android/media/MediaCodec", flush, METHOD, true⟩,
  ⟨"release", "()V", "android/media/MediaCodec", release, METHOD, true⟩,
  ⟨"getOutputFormat", "()Landroid/media/MediaFormat;", "android/media/MediaCodec", get_output_format, METHOD, true⟩,
  ⟨"getInputBuffers", "()[Ljava/nio/ByteBuffer;", "android/media/MediaCodec", get_input_buffers, METHOD, false⟩,
  ⟨"getInputBuffer", "(I)Ljava/nio/ByteBuffer;", "android/media/MediaCodec", get_input_buffer, METHOD, false⟩,
  ⟨"getOutputBuffers", "()[Ljava/nio/ByteBuffer;", "android/media/MediaCodec", get_output_buffers, METHOD, false⟩,
  ⟨"getOutputBuffer", "(I)Ljava/nio/ByteBuffer;", "android/media/MediaCodec", get_output_buffer, METHOD, false⟩,
  ⟨"dequeueInputBuffer", "(J)I", "android/media/MediaCodec", dequeue_input_buffer, METHOD, true⟩,
  ⟨"dequeueOutputBuffer", "(Landroid/media/MediaCodec$BufferInfo;J)I", "android/media/MediaCodec", dequeue_output_buffer, METHOD, true⟩,
  ⟨"queueInputBuffer", "(IIIJI)V", "android/media/MediaCodec", queue_input_buffer, METHOD, true⟩,
  ⟨"releaseOutputBuffer", "(IZ)V", "android/media/MediaCodec", release_output_buffer, METHOD, true⟩,

  ⟨"createVideoFormat", "(Ljava/lang/String;II)Landroid/media/MediaFormat;", "android/media/MediaFormat", create_video_format, STATIC_METHOD, true⟩,
  ⟨"createAudioFormat", "(Ljava/lang/String;II)Landroid/media/MediaFormat;", "android/media/MediaFormat", create_audio_format, STATIC_METHOD, true⟩,
  ⟨"setInteger", "(Ljava/lang/String;I)V", "android/media/MediaFormat", set_integer, METHOD, true⟩,
  ⟨"getInteger", "(Ljava/lang/String;)I", "android/media/MediaFormat", get_integer, METHOD, true⟩,
  ⟨"setByteBuffer", "(Ljava/lang/String;Ljava/nio/ByteBuffer;)V", "android/media/MediaFormat", set_bytebuffer, METHOD, true⟩,

  ⟨"<init>", "()V", "android/media/MediaCodec$BufferInfo", buffer_info_ctor, METHOD, true⟩,
  ⟨"size", "I", "android/media/MediaCodec$BufferInfo", size_field, FIELD, true⟩,
  ⟨"offset", "I", "android/media/MediaCodec$BufferInfo", offset_field, FIELD, true⟩,
  ⟨"presentationTimeUs", "J", "android/media/MediaCodec$BufferInfo", pts_field, FIELD, true⟩ ]

/-- The process-wide state of the file: the static `jfields` and the static
local `i_init_state` of `InitJNIFields`. -/
structure Globals where
  i_init_state : Int
  jfields : JFields

/-- The state of a process at load time: `i_init_state = -1` and a zeroed table. -/
def Globals.atLoad : Globals := ⟨-1, fun _ => none⟩

/-! ## The platform and the calls made into it -/

/-- One entry of `CodecCapabilities.profileLevels`. -/
structure CodecProfileLevel where
  profile : Int
  level : Int
  deriving DecidableEq, Repr

/-- What `getCapabilitiesForType` returns: the `profileLevels` field, nullable. -/
structure CodecCapabilities where
  profileLevels : Option (List CodecProfileLevel)
  deriving DecidableEq, Repr

/-- One component of the platform's codec list, as `MediaCodec_GetName` sees it:
what each call on it returns and whether the call raises. -/
structure MediaCodecInfo where
  /-- Whether `MediaCodecList.getCodecInfoAt`, which yields this component, raises. -/
  getCodecInfoAt_raised : Bool
  getName : CStr
  /-- Whether `MediaCodecInfo.getName` raises. -/
  getName_raised : Bool
  isEncoder : Bool
  /-- Whether `MediaCodecInfo.isEncoder` raises. -/
  isEncoder_raised : Bool
  getCapabilitiesForType : CStr → Ret (Option CodecCapabilities)
  getSupportedTypes : List CStr
  /-- Whether `MediaCodecInfo.getSupportedTypes` raises. -/
  getSupportedTypes_raised : Bool

/-- The answers of the Java side, of `android_getEnv`, of
`AWindowHandler_getSurface` and of `malloc`. -/
structure Platform where
  /-- The answer of `android_getEnv(p_obj, THREAD_NAME)`. -/
  android_getEnv : Option Handle
  /-- The answer of `FindClass`; `none` is a raised `ClassNotFoundException`. -/
  FindClass : String → Option Handle
  /-- The answer of `GetMethodID`, by class, name and signature; `none` is a raised
  error. -/
  GetMethodID : Option Handle → String → String → Option Handle
  GetStaticMethodID : Option Handle → String → String → Option Handle
  GetFieldID : Option Handle → String → String → Option Handle
  /-- Whether `NewStringUTF` of these bytes yields a string (else `NULL`). -/
  NewStringUTF : CStr → Bool
  /-- Whether `MediaCodecList.getCodecCount` raises. -/
  getCodecCount : Bool
  /-- The components `getCodecInfoAt(0)`, ..., `getCodecInfoAt(n - 1)`, where `n` is
  what `getCodecCount` returned. -/
  registry : List MediaCodecInfo
  /-- Whether `malloc` of that many bytes succeeds. -/
  malloc : Nat → Bool
  createByCodecName : Ret (Option Handle)
  createVideoFormat : Ret (Option Handle)
  createAudioFormat : Ret (Option Handle)
  /-- The answer of `AWindowHandler_getSurface(p_awh, AWindow_Video)`. -/
  AWindowHandler_getSurface : Handle → Option Handle
  /-- Whether `MediaFormat.setInteger` raises. -/
  setInteger : Bool
  /-- Whether `MediaCodec.configure` raises. -/
  configure : Bool
  /-- Whether `MediaCodec.start` raises. -/
  start : Bool
  /-- Whether `MediaCodec.stop` raises. -/
  stop : Bool
  /-- Whether `MediaCodec.flush` raises. -/
  flush : Bool
  /-- Whether `MediaCodec.release` raises. -/
  release : Bool
  getInputBuffers : Ret (Option Handle)
  getOutputBuffers : Ret (Option Handle)
  /-- The answer of `NewObject(buffer_info_class, buffer_info_ctor)`. -/
  NewObject : Ret (Option Handle)
  dequeueInputBuffer : Ret Int
  /-- The answer of `GetObjectArrayElement(array, index)`. -/
  GetObjectArrayElement : Option Handle → Int → Option Handle
  getInputBuffer : Int → Ret (Option Handle)
  /-- The answer of `GetDirectBufferCapacity`; the capacity of a `java.nio` buffer is a Java
  `int`, so the value fits the `jsize` it is stored in. -/
  GetDirectBufferCapacity : Option Handle → Int
  /-- The answer of `GetDirectBufferAddress`, as a number. -/
  GetDirectBufferAddress : Option Handle → Int
  /-- Whether `MediaCodec.queueInputBuffer` raises. -/
  queueInputBuffer : Bool
  dequeueOutputBuffer : Ret Int
  /-- The field `presentationTimeUs` of the buffer-info object after the dequeue. -/
  pts_field : Int
  offset_field : Int
  size_field : Int
  getOutputBuffer : Int → Ret (Option Handle)
  getOutputFormat : Ret (Option Handle)
  /-- Whether `MediaFormat.toString` raises. -/
  tostring : Bool
  /-- The answer of `MediaFormat.getInteger`, by key. -/
  getInteger : CStr → Ret Int
  /-- Whether `MediaCodec.releaseOutputBuffer` raises. -/
  releaseOutputBuffer : Bool

/-- The calls a function issues, in the order it issues them. -/
inductive Effect
  | FindClass (name : String)
  | GetMethodID (clazz : Option Handle) (name sig : String)
  | GetStaticMethodID (clazz : Option Handle) (name sig : String)
  | GetFieldID (clazz : Option Handle) (name sig : String)
  | getCodecCount
  | getCodecInfoAt (i : Nat)
  | getName (i : Nat)
  | isEncoder (i : Nat)
  | getCapabilitiesForType (i : Nat) (jmime : jstring)
  | getSupportedTypes (i : Nat)
  | createByCodecName (jcodec_name : jstring)
  | createVideoFormat (jmime : jstring) (i_width i_height : Int)
  | createAudioFormat (jmime : jstring) (i_sample_rate i_channel_count : Int)
  | AWindowHandler_getSurface (p_awh : Handle)
  | setInteger (jformat : Option Handle) (key : jstring) (value : Int)
  | configure (codec jformat jsurface : Option Handle)
  | start (codec : Option Handle)
  | stop (codec : Option Handle)
  | flush (codec : Option Handle)
  | release (codec : Option Handle)
  | getInputBuffers (codec : Option Handle)
  | getOutputBuffers (codec : Option Handle)
  | NewObject
  | DeleteGlobalRef (ref : Option Handle)
  | dequeueInputBuffer (codec : Option Handle) (i_timeout : Int)
  | GetObjectArrayElement (array : Option Handle) (index : Int)
  | getInputBuffer (codec : Option Handle) (index : Int)
  | GetDirectBufferCapacity (buf : Option Handle)
  | GetDirectBufferAddress (buf : Option Handle)
  | memcpy (dest : Int) (src : List Nat) (n : Int)
  | queueInputBuffer (codec : Option Handle) (index offset size : Int) (i_ts : Int) (jflags : Int)
  | dequeueOutputBuffer (codec buffer_info : Option Handle) (i_timeout : Int)
  | getOutputBuffer (codec : Option Handle) (index : Int)
  | getOutputFormat (codec : Option Handle)
  | tostring (format : Option Handle)
  | getInteger (format : Option Handle) (key : jstring)
  | releaseOutputBuffer (codec : Option Handle) (i_index : Int) (b_render : Bool)
  deriving DecidableEq, Repr

/-! ## InitJNIFields -/

/-- What `InitJNIFields` hands back: its result, the process state it leaves
and the lookups it made. -/
structure InitOut where
  ret : Bool
  globals : Globals
  trace : List Effect

/-- The loop over `classes[]`. The Boolean is false when the loop left through
`goto end`. -/
def InitJNIFields.classLoop (P : Platform) :
    List classname → JFields → List Effect → Bool × JFields × List Effect
  | [], jf, tr => (true, jf, tr)
  | c :: rest, jf, tr =>
    match P.FindClass c.name with
    | none => (false, jf, tr ++ [Effect.FindClass c.name])
    | some clazz =>
      InitJNIFields.classLoop P rest (jf.set c.offset (some clazz)) (tr ++ [Effect.FindClass c.name])

/-- The identifier lookup of one member, chosen by `members[i].type`. -/
def InitJNIFields.lookup (P : Platform) (last_class : Option Handle) (m : member) :
    Option Handle :=
  match m.type with
  | Types.METHOD => P.GetMethodID last_class m.name m.sig
  | Types.STATIC_METHOD => P.GetStaticMethodID last_class m.name m.sig
  | Types.FIELD => P.GetFieldID last_class m.name m.sig

/-- The call that `InitJNIFields.lookup` stands for. -/
def InitJNIFields.lookupEffect (last_class : Option Handle) (m : member) : Effect :=
  match m.type with
  | Types.METHOD => Effect.GetMethodID last_class m.name m.sig
  | Types.STATIC_METHOD => Effect.GetStaticMethodID last_class m.name m.sig
  | Types.FIELD => Effect.GetFieldID last_class m.name m.sig

/-- The loop over `members[]`. `prev` is `members[i - 1].class` (`none` when
`i = 0`) and `last_class` the class found last. The Boolean is false when the
loop left through `goto end`. -/
def InitJNIFields.memberLoop (P : Platform) :
    List member → Option String → Option Handle → JFields → List Effect →
      Bool × JFields × List Effect
  | [], _, _, jf, tr => (true, jf, tr)
  | m :: rest, prev, last_class, jf, tr =>
    let find : Bool := prev != some m.cls
    let last_class := if find then P.FindClass m.cls else last_class
    let tr := if find then tr ++ [Effect.FindClass m.cls] else tr
    if find && last_class.isNone then (false, jf, tr)
    else
      let id := InitJNIFields.lookup P last_class m
      let jf := jf.set m.offset id
      let tr := tr ++ [InitJNIFields.lookupEffect last_class m]
      if id.isNone && m.critical then (false, jf, tr)
      else InitJNIFields.memberLoop P rest (some m.cls) last_class jf tr

/-- The choice between the two sets of buffer accessors that ends
`InitJNIFields`. The Boolean is false when the code left through `goto end`. -/
def InitJNIFields.selectAccessors (jf : JFields) : Bool × JFields :=
  if (jf JField.get_input_buffer).isSome && (jf JField.get_output_buffer).isSome then
    (true, (jf.set JField.get_input_buffers none).set JField.get_output_buffers none)
  else if (jf JField.get_output_buffers).isNone && (jf JField.get_input_buffers).isNone then
    (false, jf)
  else
    (true, jf)

/-- The function `InitJNIFields`. -/
def InitJNIFields (P : Platform) (g : Globals) : InitOut :=
  if g.i_init_state != -1 then
    ⟨g.i_init_state == 1, g, []⟩
  else
    match InitJNIFields.classLoop P classes g.jfields [] with
    | (false, jf, tr) => ⟨false, ⟨0, jf⟩, tr⟩
    | (true, jf, tr) =>
      match InitJNIFields.memberLoop P members none none jf tr with
      | (false, jf, tr) => ⟨false, ⟨0, jf⟩, tr⟩
      | (true, jf, tr) =>
        match InitJNIFields.selectAccessors jf with
        | (false, jf) => ⟨false, ⟨0, jf⟩, tr⟩
        | (true, jf) => ⟨true, ⟨1, jf⟩, tr⟩

/-! ## MediaCodec_GetName -/

/-- The two functions of `omxil_utils.h` that `MediaCodec_GetName` calls; the
header declares them and their bodies are not part of this file, so they are
parameters of the model. -/
structure OmxilUtils where
  /-- The function `OMXCodec_IsBlacklisted(name_ptr, name_len)`. -/
  OMXCodec_IsBlacklisted : CStr → Nat → Bool
  /-- The function `convert_omx_to_profile_idc(omx_profile)`. -/
  convert_omx_to_profile_idc : Int → Nat

/-- The C library's `strncmp`: at most `n` bytes are compared and the comparison
stops after a terminating NUL, which is what the end of a list stands for. -/
def strncmp : CStr → CStr → Nat → Int
  | _, _, 0 => 0
  | [], [], _ + 1 => 0
  | [], b :: _, _ + 1 => 0 - (b : Int)
  | a :: _, [], _ + 1 => (a : Int)
  | a :: s1, b :: s2, n + 1 => if a ≠ b then (a : Int) - (b : Int) else strncmp s1 s2 n

/-- The C library's `memcmp` over the first `n` bytes of two buffers; a byte
past the end of a list is the NUL that follows it. -/
def memcmp : List Nat → List Nat → Nat → Int
  | _, _, 0 => 0
  | s1, s2, n + 1 =>
    if s1.headD 0 ≠ s2.headD 0 then (s1.headD 0 : Int) - (s2.headD 0 : Int)
    else memcmp s1.tail s2.tail n

/-- The function `jstrcmp`: `str` is the Java string, by its bytes. -/
def jstrcmp (str : CStr) (str2 : CStr) : Int :=
  let len := str.length
  if len ≠ str2.length then -1
  else memcmp str str2 len

/-- The inner loop `for (int i = 0; i < profile_levels_len && !found; ++i)`. -/
def MediaCodec_GetName.profileLoop (U : OmxilUtils) (h264_profile : Nat) :
    List CodecProfileLevel → Bool → Bool
  | [], found => found
  | profile_level :: rest, found =>
    if found then found
    else
      let omx_profile := profile_level.profile
      let codec_profile := U.convert_omx_to_profile_idc omx_profile
      if codec_profile ≠ h264_profile then
        MediaCodec_GetName.profileLoop U h264_profile rest found
      else
        MediaCodec_GetName.profileLoop U h264_profile rest true

/-- The loop `for (int j = 0; j < num_types && !found; j++)`. -/
def MediaCodec_GetName.typeLoop (U : OmxilUtils) (psz_mime : CStr) (h264_profile : Nat)
    (name_ptr : CStr) (name_len : Nat) (profile_levels : List CodecProfileLevel) :
    List CStr → Bool → Bool
  | [], found => found
  | type :: rest, found =>
    if found then found
    else
      let found :=
        if jstrcmp type psz_mime = 0 then
          if h264_profile ≠ 0 then
            let found :=
              if strncmp name_ptr (ascii "OMX.LUMEVideoDecoder") (min 20 name_len) = 0 then true
              else found
            MediaCodec_GetName.profileLoop U h264_profile profile_levels found
          else true
        else found
      MediaCodec_GetName.typeLoop U psz_mime h264_profile name_ptr name_len profile_levels
        rest found

/-- The array the profile loop runs over: `profile_levels_len` stays 0 when
the capabilities or their `profileLevels` field are null. -/
def MediaCodec_GetName.profile_levels (codec_capabilities : Option CodecCapabilities) :
    List CodecProfileLevel :=
  match codec_capabilities with
  | none => []
  | some c =>
    match c.profileLevels with
    | none => []
    | some l => l

/-- What one pass of the loop over the components leaves, up to `loopclean`. -/
structure MediaCodec_GetName.Pass where
  found : Bool
  /-- Whether a Java exception is pending. -/
  pending : Bool
  trace : List Effect

/-- The body of the loop over the components, up to `loopclean`, entered with the
exception flag `pending`: the value of `found`, the flag and the calls made for
component `i`.  Of the calls on the component only `getCapabilitiesForType` is
followed by `CHECK_EXCEPTION()`, which therefore also finds what an earlier
call raised. -/
def MediaCodec_GetName.body (U : OmxilUtils) (psz_mime : CStr) (h264_profile : Nat)
    (pending : Bool) (i : Nat) (info : MediaCodecInfo) : MediaCodec_GetName.Pass :=
  let pending := pending || info.getCodecInfoAt_raised
  let name_ptr := info.getName
  let pending := pending || info.getName_raised
  let name_len := name_ptr.length
  let tr := [Effect.getCodecInfoAt i, Effect.getName i]
  if U.OMXCodec_IsBlacklisted name_ptr name_len then ⟨false, pending, tr⟩
  else
    let tr := tr ++ [Effect.isEncoder i]
    let pending := pending || info.isEncoder_raised
    if info.isEncoder then ⟨false, pending, tr⟩
    else
      let codec_capabilities := info.getCapabilitiesForType psz_mime
      let tr := tr ++ [Effect.getCapabilitiesForType i (some psz_mime)]
      if pending || codec_capabilities.raised then ⟨false, false, tr⟩
      else
        let profile_levels := MediaCodec_GetName.profile_levels codec_capabilities.val
        let tr := tr ++ [Effect.getSupportedTypes i]
        ⟨MediaCodec_GetName.typeLoop U psz_mime h264_profile name_ptr name_len profile_levels
          info.getSupportedTypes false, info.getSupportedTypes_raised, tr⟩

/-- What the loop over the components leaves: `psz_name` (`none` for `NULL`),
whether a Java exception is pending and the calls made so far. -/
structure MediaCodec_GetName.Found where
  psz_name : Option CStr
  pending : Bool
  trace : List Effect

/-- The loop `for (int i = 0; i < num_codecs; i++)`, from index `i` on, entered
with the exception flag `pending` and after the calls `tr`. -/
def MediaCodec_GetName.loop (U : OmxilUtils) (P : Platform) (psz_mime : CStr)
    (h264_profile : Nat) :
    List MediaCodecInfo → Nat → Bool → List Effect → MediaCodec_GetName.Found
  | [], _, pending, tr => ⟨none, pending, tr⟩
  | info :: rest, i, pending, tr =>
    let r := MediaCodec_GetName.body U psz_mime h264_profile pending i info
    if r.found then
      ⟨if P.malloc (info.getName.length + 1) then some info.getName else none, r.pending,
        tr ++ r.trace⟩
    else
      MediaCodec_GetName.loop U P psz_mime h264_profile rest (i + 1) r.pending (tr ++ r.trace)

/-- What `MediaCodec_GetName` hands back: the name (`none` for `NULL`), the
process state it leaves, whether it leaves a Java exception pending and the
calls it made. -/
structure GetNameOut where
  psz_name : Option CStr
  globals : Globals
  pending : Bool
  trace : List Effect

/-- The function `MediaCodec_GetName`. -/
def MediaCodec_GetName (U : OmxilUtils) (P : Platform) (g : Globals) (psz_mime : CStr)
    (h264_profile : Nat) : GetNameOut :=
  match P.android_getEnv with
  | none => ⟨none, g, false, []⟩
  | some _ =>
    let init := InitJNIFields P g
    if !init.ret then ⟨none, init.globals, false, init.trace⟩
    else if !P.NewStringUTF psz_mime then ⟨none, init.globals, false, init.trace⟩
    else
      let r := MediaCodec_GetName.loop U P psz_mime h264_profile P.registry 0 P.getCodecCount
        (init.trace ++ [Effect.getCodecCount])
      ⟨r.psz_name, init.globals, r.pending, r.trace⟩

/-! ## The session -/

structure mc_api_sys where
  codec : Option Handle
  buffer_info : Option Handle
  input_buffers : Option Handle
  output_buffers : Option Handle
  deriving DecidableEq, Repr

/-- Modelled from the spec: `mediacodec.h`, which declares `mc_api`, is not among
the sources; these are the fields of it that this file reads or writes. -/
structure mc_api where
  b_video : Bool
  b_started : Bool
  b_direct_rendering : Bool
  b_support_interlaced : Bool
  p_sys : mc_api_sys
  deriving DecidableEq, Repr

structure mc_api_args_video where
  i_width : Int
  i_height : Int
  i_angle : Int
  p_awh : Option Handle
  deriving DecidableEq, Repr

structure mc_api_args_audio where
  i_sample_rate : Int
  i_channel_count : Int
  deriving DecidableEq, Repr

/-- Modelled from the spec: `mediacodec.h` is not among the sources; this is the
union `mc_api_args` by its two views, with the fields `Start` reads. -/
structure mc_api_args where
  video : mc_api_args_video
  audio : mc_api_args_audio
  deriving DecidableEq, Repr

/-- What a session operation hands back: its status, the session it leaves,
whether a Java exception is left pending, and the calls it made. -/
structure Out where
  ret : Int
  api : mc_api
  pending : Bool
  trace : List Effect
  deriving DecidableEq, Repr

/-- The function `Stop`. `pending` says whether a Java exception is pending when
it is entered, which the error path of `Start` can bring about. -/
def Stop (P : Platform) (pending : Bool) (api : mc_api) : Out :=
  let api := { api with b_direct_rendering := false }
  match P.android_getEnv with
  | none => ⟨VLC_EGENERIC, api, pending, []⟩
  | some _ =>
    let tr : List Effect :=
      if api.p_sys.input_buffers.isSome then [Effect.DeleteGlobalRef api.p_sys.input_buffers]
      else []
    let api := { api with p_sys := { api.p_sys with input_buffers := none } }
    let tr :=
      if api.p_sys.output_buffers.isSome then
        tr ++ [Effect.DeleteGlobalRef api.p_sys.output_buffers]
      else tr
    let api := { api with p_sys := { api.p_sys with output_buffers := none } }
    let codec := api.p_sys.codec
    let tr :=
      if codec.isSome then
        (if api.b_started then tr ++ [Effect.stop codec] else tr)
          ++ [Effect.release codec, Effect.DeleteGlobalRef codec]
      else tr
    let pending := if codec.isSome then false else pending
    let api :=
      if codec.isSome then
        { api with
          b_started := if api.b_started then false else api.b_started,
          p_sys := { api.p_sys with codec := none } }
      else api
    let tr :=
      if api.p_sys.buffer_info.isSome then tr ++ [Effect.DeleteGlobalRef api.p_sys.buffer_info]
      else tr
    let api := { api with p_sys := { api.p_sys with buffer_info := none } }
    ⟨VLC_SUCCESS, api, pending, tr⟩

/-- The label `error` of `Start` when `i_ret` is still `VLC_EGENERIC`: the
local references are dropped and `Stop(api)` runs. -/
def Start.error (P : Platform) (pending : Bool) (api : mc_api) (tr : List Effect) : Out :=
  let r := Stop P pending api
  ⟨VLC_EGENERIC, r.api, r.pending, tr ++ r.trace⟩

/-- The part of `Start` from `MediaCodec.start` on. -/
def Start.run (P : Platform) (g : Globals) (api : mc_api) (b_direct_rendering : Bool)
    (pending : Bool) (tr : List Effect) : Out :=
  let tr := tr ++ [Effect.start api.p_sys.codec]
  if pending || P.start then Start.error P false api tr
  else
    let api := { api with b_started := true }
    if (g.jfields JField.get_input_buffers).isSome
        && (g.jfields JField.get_output_buffers).isSome then
      let jinput_buffers := P.getInputBuffers
      let tr := tr ++ [Effect.getInputBuffers api.p_sys.codec]
      if jinput_buffers.raised then Start.error P false api tr
      else
        let api := { api with p_sys := { api.p_sys with input_buffers := jinput_buffers.val } }
        let joutput_buffers := P.getOutputBuffers
        let tr := tr ++ [Effect.getOutputBuffers api.p_sys.codec]
        if joutput_buffers.raised then Start.error P false api tr
        else
          let api :=
            { api with p_sys := { api.p_sys with output_buffers := joutput_buffers.val } }
          let jbuffer_info := P.NewObject
          let tr := tr ++ [Effect.NewObject]
          let api := { api with p_sys := { api.p_sys with buffer_info := jbuffer_info.val } }
          let api := { api with b_direct_rendering := b_direct_rendering }
          ⟨VLC_SUCCESS, api, jbuffer_info.raised, tr⟩
    else
      let jbuffer_info := P.NewObject
      let tr := tr ++ [Effect.NewObject]
      let api := { api with p_sys := { api.p_sys with buffer_info := jbuffer_info.val } }
      let api := { api with b_direct_rendering := b_direct_rendering }
      ⟨VLC_SUCCESS, api, jbuffer_info.raised, tr⟩

/-- The part of `Start` that configures the codec: with the surface when
`b_direct_rendering` holds, with a null surface otherwise. -/
def Start.configure (P : Platform) (g : Globals) (api : mc_api) (b_direct_rendering : Bool)
    (jformat jsurface : Option Handle) (pending : Bool) (tr : List Effect) : Out :=
  if b_direct_rendering then
    let tr := tr ++ [Effect.configure api.p_sys.codec jformat jsurface]
    if pending || P.configure then Start.error P false api tr
    else Start.run P g api b_direct_rendering false tr
  else
    let tr := tr ++ [Effect.configure api.p_sys.codec jformat none]
    if pending || P.configure then Start.error P false api tr
    else Start.run P g api b_direct_rendering false tr

/-- The function `Start`. -/
def Start (P : Platform) (g : Globals) (api : mc_api) (psz_name psz_mime : CStr)
    (p_args : mc_api_args) : Out :=
  match P.android_getEnv with
  | none => ⟨VLC_EGENERIC, api, false, []⟩
  | some _ =>
    let jmime : jstring := if P.NewStringUTF psz_mime then some psz_mime else none
    let jcodec_name : jstring := if P.NewStringUTF psz_name then some psz_name else none
    if jmime.isNone || jcodec_name.isNone then Start.error P true api []
    else
      let jcodec := P.createByCodecName
      let tr := [Effect.createByCodecName jcodec_name]
      if jcodec.raised then Start.error P false api tr
      else
        let api := { api with p_sys := { api.p_sys with codec := jcodec.val } }
        if api.b_video then
          let jformat := P.createVideoFormat
          let tr := tr ++ [Effect.createVideoFormat jmime p_args.video.i_width
            p_args.video.i_height]
          let pending := jformat.raised
          let jsurface : Option Handle :=
            match p_args.video.p_awh with
            | some awh => P.AWindowHandler_getSurface awh
            | none => none
          let tr :=
            match p_args.video.p_awh with
            | some awh => tr ++ [Effect.AWindowHandler_getSurface awh]
            | none => tr
          let b_direct_rendering := jsurface.isSome
          let b_direct_rendering :=
            if b_direct_rendering && p_args.video.i_angle != 0
                && (g.jfields JField.get_input_buffer).isNone then false
            else b_direct_rendering
          let rotate : Bool := b_direct_rendering && p_args.video.i_angle != 0
          let jrotation_string : jstring :=
            if rotate && P.NewStringUTF (ascii "rotation-degrees") then
              some (ascii "rotation-degrees")
            else none
          let pending := pending || (rotate && !P.NewStringUTF (ascii "rotation-degrees"))
          let tr := tr ++ [Effect.setInteger jformat.val jrotation_string p_args.video.i_angle]
          let pending := pending || P.setInteger
          Start.configure P g api b_direct_rendering jformat.val jsurface pending tr
        else
          let jformat := P.createAudioFormat
          let tr := tr ++ [Effect.createAudioFormat jmime p_args.audio.i_sample_rate
            p_args.audio.i_channel_count]
          Start.configure P g api false jformat.val none jformat.raised tr

/-- The function `Flush`. -/
def Flush (P : Platform) (api : mc_api) : Out :=
  match P.android_getEnv with
  | none => ⟨VLC_EGENERIC, api, false, []⟩
  | some _ =>
    if P.flush then ⟨VLC_EGENERIC, api, false, [Effect.flush api.p_sys.codec]⟩
    else ⟨VLC_SUCCESS, api, false, [Effect.flush api.p_sys.codec]⟩

/-- The input buffer `PutInput` fetches for a slot: an element of the cached
array when `jfields.get_input_buffers` is set, the answer of `getInputBuffer`
otherwise. Only the second is followed by `CHECK_EXCEPTION()`. -/
def PutInput.j_mc_buf (P : Platform) (g : Globals) (api : mc_api) (index : Int) :
    Ret (Option Handle) :=
  if (g.jfields JField.get_input_buffers).isSome then
    ⟨false, P.GetObjectArrayElement api.p_sys.input_buffers index⟩
  else
    P.getInputBuffer index

/-- The call that `PutInput.j_mc_buf` stands for. -/
def PutInput.fetch (g : Globals) (api : mc_api) (index : Int) : Effect :=
  if (g.jfields JField.get_input_buffers).isSome then
    Effect.GetObjectArrayElement api.p_sys.input_buffers index
  else
    Effect.getInputBuffer api.p_sys.codec index

/-- The function `PutInput`. The buffer `p_buf` holds at least `i_size` bytes. -/
def PutInput (P : Platform) (g : Globals) (api : mc_api) (p_buf : List Nat) (i_size : Nat)
    (i_ts : Int) (b_config : Bool) (i_timeout : Int) : Out :=
  let jflags : Int := if b_config then BUFFER_FLAG_CODEC_CONFIG else 0
  match P.android_getEnv with
  | none => ⟨VLC_EGENERIC, api, false, []⟩
  | some _ =>
    let index := P.dequeueInputBuffer
    let tr := [Effect.dequeueInputBuffer api.p_sys.codec i_timeout]
    if index.raised then ⟨VLC_EGENERIC, api, false, tr⟩
    else if index.val < 0 then ⟨0, api, false, tr⟩
    else
      let j_mc_buf := PutInput.j_mc_buf P g api index.val
      let tr := tr ++ [PutInput.fetch g api index.val]
      if j_mc_buf.raised then ⟨VLC_EGENERIC, api, false, tr⟩
      else
        let j_mc_size : Int := P.GetDirectBufferCapacity j_mc_buf.val
        let p_mc_buf : Int := P.GetDirectBufferAddress j_mc_buf.val
        let tr := tr ++ [Effect.GetDirectBufferCapacity j_mc_buf.val,
          Effect.GetDirectBufferAddress j_mc_buf.val]
        if j_mc_size < 0 then ⟨VLC_EGENERIC, api, false, tr⟩
        else
          let j_mc_size : Int := if j_mc_size.toNat > i_size then (i_size : Int) else j_mc_size
          let tr := tr ++ [Effect.memcpy p_mc_buf (p_buf.take j_mc_size.toNat) j_mc_size]
          let tr := tr ++ [Effect.queueInputBuffer api.p_sys.codec index.val 0 j_mc_size i_ts
            jflags]
          if P.queueInputBuffer then ⟨VLC_EGENERIC, api, false, tr⟩
          else ⟨1, api, false, tr⟩

inductive mc_api_out_type
  | MC_OUT_TYPE_BUF | MC_OUT_TYPE_CONF
  deriving DecidableEq, Repr

structure mc_api_out_buf where
  i_index : Int
  i_ts : Int
  /-- The pointer; `none` is `NULL`. -/
  p_ptr : Option Int
  i_size : Int
  deriving DecidableEq, Repr

structure mc_api_out_video where
  width : Int
  height : Int
  stride : Int
  slice_height : Int
  pixel_format : Int
  crop_left : Int
  crop_top : Int
  crop_right : Int
  crop_bottom : Int
  deriving DecidableEq, Repr

structure mc_api_out_audio where
  channel_count : Int
  channel_mask : Int
  sample_rate : Int
  deriving DecidableEq, Repr

/-- Modelled from the spec: `mediacodec.h` is not among the sources; this is
`mc_api_out` with the members `GetOutput` assigns, each view of its unions
kept as a field of its own. -/
structure mc_api_out where
  type : mc_api_out_type
  buf : mc_api_out_buf
  video : mc_api_out_video
  audio : mc_api_out_audio
  deriving DecidableEq, Repr

/-- The function `get_integer`; `pending` says whether an exception is pending
when it is entered.  Its first `CHECK_EXCEPTION()` clears what was pending and
its second what `getInteger` raised, so it returns with no exception pending. -/
def get_integer (P : Platform) (pending : Bool) (obj : Option Handle) (psz_name : CStr) :
    Int × List Effect :=
  let jname : jstring := if P.NewStringUTF psz_name then some psz_name else none
  if !(pending || !P.NewStringUTF psz_name) && jname.isSome then
    let i_ret := P.getInteger psz_name
    if i_ret.raised then (0, [Effect.getInteger obj jname])
    else (i_ret.val, [Effect.getInteger obj jname])
  else (0, [])

/-- What `GetOutput` hands back: its status, the session it leaves, the
contents of `*p_out` and the calls it made. -/
structure GetOutputOut where
  ret : Int
  api : mc_api
  p_out : mc_api_out
  trace : List Effect
  deriving DecidableEq, Repr

/-- The function `GetOutput`.  On a format change `toString` is called on the
format without a `CHECK_EXCEPTION()`; what it raises is pending when the first
`get_integer` is entered, and every `get_integer` returns with the flag clear. -/
def GetOutput (P : Platform) (g : Globals) (api : mc_api) (p_out : mc_api_out)
    (i_timeout : Int) : GetOutputOut :=
  match P.android_getEnv with
  | none => ⟨VLC_EGENERIC, api, p_out, []⟩
  | some _ =>
    let i_index := P.dequeueOutputBuffer
    let tr := [Effect.dequeueOutputBuffer api.p_sys.codec api.p_sys.buffer_info i_timeout]
    if i_index.raised then ⟨VLC_EGENERIC, api, p_out, tr⟩
    else if i_index.val ≥ 0 then
      let p_out := { p_out with type := mc_api_out_type.MC_OUT_TYPE_BUF }
      let p_out := { p_out with buf := { p_out.buf with i_index := i_index.val } }
      let p_out := { p_out with buf := { p_out.buf with i_ts := P.pts_field } }
      if api.b_direct_rendering then
        let p_out := { p_out with buf := { p_out.buf with p_ptr := none } }
        let p_out := { p_out with buf := { p_out.buf with i_size := 0 } }
        ⟨1, api, p_out, tr⟩
      else
        let fetch : Ret (Option Handle) × List Effect :=
          if (g.jfields JField.get_output_buffers).isSome then
            (⟨false, P.GetObjectArrayElement api.p_sys.output_buffers i_index.val⟩,
              tr ++ [Effect.GetObjectArrayElement api.p_sys.output_buffers i_index.val])
          else
            (P.getOutputBuffer i_index.val,
              tr ++ [Effect.getOutputBuffer api.p_sys.codec i_index.val])
        let buf := fetch.1
        let tr := fetch.2
        if buf.raised then ⟨VLC_EGENERIC, api, p_out, tr⟩
        else
          let ptr : Int := P.GetDirectBufferAddress buf.val
          let tr := tr ++ [Effect.GetDirectBufferAddress buf.val]
          let offset : Int := P.offset_field
          let p_out := { p_out with buf := { p_out.buf with p_ptr := some (ptr + offset) } }
          let p_out := { p_out with buf := { p_out.buf with i_size := P.size_field } }
          ⟨1, api, p_out, tr⟩
    else if i_index.val = INFO_OUTPUT_FORMAT_CHANGED then
      let format := P.getOutputFormat
      let tr := tr ++ [Effect.getOutputFormat api.p_sys.codec]
      if format.raised then ⟨VLC_EGENERIC, api, p_out, tr⟩
      else
        let tr := tr ++ [Effect.tostring format.val]
        let pending := P.tostring
        let p_out := { p_out with type := mc_api_out_type.MC_OUT_TYPE_CONF }
        if api.b_video then
          let width := get_integer P pending format.val (ascii "width")
          let height := get_integer P false format.val (ascii "height")
          let stride := get_integer P false format.val (ascii "stride")
          let slice_height := get_integer P false format.val (ascii "slice-height")
          let pixel_format := get_integer P false format.val (ascii "color-format")
          let crop_left := get_integer P false format.val (ascii "crop-left")
          let crop_top := get_integer P false format.val (ascii "crop-top")
          let crop_right := get_integer P false format.val (ascii "crop-right")
          let crop_bottom := get_integer P false format.val (ascii "crop-bottom")
          let p_out := { p_out with video := ⟨width.1, height.1, stride.1, slice_height.1,
            pixel_format.1, crop_left.1, crop_top.1, crop_right.1, crop_bottom.1⟩ }
          ⟨1, api, p_out, tr ++ width.2 ++ height.2 ++ stride.2 ++ slice_height.2
            ++ pixel_format.2 ++ crop_left.2 ++ crop_top.2 ++ crop_right.2 ++ crop_bottom.2⟩
        else
          let channel_count := get_integer P pending format.val (ascii "channel-count")
          let channel_mask := get_integer P false format.val (ascii "channel-mask")
          let sample_rate := get_integer P false format.val (ascii "sample-rate")
          let p_out := { p_out with audio := ⟨channel_count.1, channel_mask.1, sample_rate.1⟩ }
          ⟨1, api, p_out, tr ++ channel_count.2 ++ channel_mask.2 ++ sample_rate.2⟩
    else if i_index.val = INFO_OUTPUT_BUFFERS_CHANGED then
      if (g.jfields JField.get_output_buffers).isNone then ⟨0, api, p_out, tr⟩
      else
        let tr := tr ++ [Effect.DeleteGlobalRef api.p_sys.output_buffers]
        let joutput_buffers := P.getOutputBuffers
        let tr := tr ++ [Effect.getOutputBuffers api.p_sys.codec]
        if joutput_buffers.raised then
          ⟨VLC_EGENERIC, { api with p_sys := { api.p_sys with output_buffers := none } },
            p_out, tr⟩
        else
          ⟨0, { api with p_sys := { api.p_sys with output_buffers := joutput_buffers.val } },
            p_out, tr⟩
    else ⟨0, api, p_out, tr⟩

/-- The function `ReleaseOutput`. -/
def ReleaseOutput (P : Platform) (api : mc_api) (i_index : Int) (b_render : Bool) : Out :=
  match P.android_getEnv with
  | none => ⟨VLC_EGENERIC, api, false, []⟩
  | some _ =>
    if P.releaseOutputBuffer then
      ⟨VLC_EGENERIC, api, false, [Effect.releaseOutputBuffer api.p_sys.codec i_index b_render]⟩
    else
      ⟨VLC_SUCCESS, api, false, [Effect.releaseOutputBuffer api.p_sys.codec i_index b_render]⟩

/-! ## What the platform answers to the lookups of InitJNIFields -/

/-- The identifier the platform gives for a member, looked up in the class the
table names for it; `none` when the class or the member is missing. -/
def Platform.member (P : Platform) (m : member) : Option Handle :=
  InitJNIFields.lookup P (P.FindClass m.cls) m

/-- The stores the loop over `members[]` makes when it runs to its end. -/
def InitJNIFields.memberStores (P : Platform) (ms : List member) (jf : JFields) : JFields :=
  ms.foldl (fun jf m => jf.set m.offset (P.member m)) jf

def member.getInputBuffers : member :=
  ⟨"getInputBuffers", "()[Ljava/nio/ByteBuffer;", "android/media/MediaCodec",
    JField.get_input_buffers, Types.METHOD, false⟩

def member.getInputBuffer : member :=
  ⟨"getInputBuffer", "(I)Ljava/nio/ByteBuffer;", "android/media/MediaCodec",
    JField.get_input_buffer, Types.METHOD, false⟩

def member.getOutputBuffers : member :=
  ⟨"getOutputBuffers", "()[Ljava/nio/ByteBuffer;", "android/media/MediaCodec",
    JField.get_output_buffers, Types.METHOD, false⟩

def member.getOutputBuffer : member :=
  ⟨"getOutputBuffer", "(I)Ljava/nio/ByteBuffer;", "android/media/MediaCodec",
    JField.get_output_buffer, Types.METHOD, false⟩

/-- The test that ends `InitJNIFields`, on what the platform answers: both
per-index accessors are there, or one of the array accessors is. -/
def Platform.accessorsPass (P : Platform) : Prop :=
  ((P.member member.getInputBuffer).isSome ∧ (P.member member.getOutputBuffer).isSome)
  ∨ (P.member member.getOutputBuffers).isSome ∨ (P.member member.getInputBuffers).isSome

/-- The outcomes of successive calls of `InitJNIFields`, each made on the
process state the call before it left. -/
def InitJNIFields.calls : List Platform → Globals → List InitOut
  | [], _ => []
  | P :: rest, g => InitJNIFields P g :: InitJNIFields.calls rest (InitJNIFields P g).globals

/-! ## What Start and PutInput are stated on -/

/-- The surface `Start` obtains for a video session: the answer of
`AWindowHandler_getSurface` when `p_awh` is not null, `NULL` otherwise. -/
def Start.jsurface (P : Platform) (p_args : mc_api_args) : Option Handle :=
  match p_args.video.p_awh with
  | some awh => P.AWindowHandler_getSurface awh
  | none => none

/-- The surface arguments of the calls of `MediaCodec.configure`, in order. -/
def Effect.surfaces (tr : List Effect) : List (Option Handle) :=
  tr.filterMap fun e =>
    match e with
    | Effect.configure _ _ jsurface => some jsurface
    | _ => none

/-- A copy into a platform buffer or a call of `queueInputBuffer`. -/
def Effect.feeds : Effect → Bool
  | Effect.memcpy _ _ _ => true
  | Effect.queueInputBuffer _ _ _ _ _ _ => true
  | _ => false

/-- The capacity the platform reports for the input buffer of the dequeued slot. -/
def PutInput.capacity (P : Platform) (g : Globals) (api : mc_api) : Int :=
  P.GetDirectBufferCapacity (PutInput.j_mc_buf P g api P.dequeueInputBuffer.val).val

/-- The address the platform reports for the input buffer of the dequeued slot. -/
def PutInput.address (P : Platform) (g : Globals) (api : mc_api) : Int :=
  P.GetDirectBufferAddress (PutInput.j_mc_buf P g api P.dequeueInputBuffer.val).val

/-- The input buffer of the slot that `dequeueInputBuffer` hands out, as the
platform holds it: where the session works on the array fetched at start
(`jfields.get_input_buffers` set), the element of `p_sys->input_buffers` at the
index of the slot; otherwise what `getInputBuffer` answers for that index. -/
def PutInput.slot (P : Platform) (g : Globals) (api : mc_api) : Ret (Option Handle) :=
  match g.jfields JField.get_input_buffers with
  | some _ => ⟨false, P.GetObjectArrayElement api.p_sys.input_buffers P.dequeueInputBuffer.val⟩
  | none => P.getInputBuffer P.dequeueInputBuffer.val

/-- The call by which the buffer of the dequeued slot is obtained. -/
def PutInput.slotFetch (P : Platform) (g : Globals) (api : mc_api) : Effect :=
  match g.jfields JField.get_input_buffers with
  | some _ => Effect.GetObjectArrayElement api.p_sys.input_buffers P.dequeueInputBuffer.val
  | none => Effect.getInputBuffer api.p_sys.codec P.dequeueInputBuffer.val

/-- The capacity of the buffer of the dequeued slot. -/
def PutInput.slotCapacity (P : Platform) (g : Globals) (api : mc_api) : Int :=
  P.GetDirectBufferCapacity (PutInput.slot P g api).val

/-- The address of the buffer of the dequeued slot. -/
def PutInput.slotAddress (P : Platform) (g : Globals) (api : mc_api) : Int :=
  P.GetDirectBufferAddress (PutInput.slot P g api).val

/-! ## The selection criteria -/

/-- The name belongs to the family the profile check exempts: it begins with the
twenty bytes of "OMX.LUMEVideoDecoder". -/
def MediaCodec_GetName.beginsWithLUME (name : CStr) : Prop :=
  name.take 20 = ascii "OMX.LUMEVideoDecoder"

instance (name : CStr) : Decidable (MediaCodec_GetName.beginsWithLUME name) :=
  inferInstanceAs (Decidable (name.take 20 = ascii "OMX.LUMEVideoDecoder"))

/-- The component declares, for the MIME type, a profile level whose profile
converts to `h264_profile`. -/
def MediaCodec_GetName.declaresProfile (U : OmxilUtils) (psz_mime : CStr) (h264_profile : Nat)
    (info : MediaCodecInfo) : Prop :=
  ∃ pl ∈ MediaCodec_GetName.profile_levels (info.getCapabilitiesForType psz_mime).val,
    U.convert_omx_to_profile_idc pl.profile = h264_profile

instance (U : OmxilUtils) (psz_mime : CStr) (h264_profile : Nat) (info : MediaCodecInfo) :
    Decidable (MediaCodec_GetName.declaresProfile U psz_mime h264_profile info) :=
  inferInstanceAs (Decidable (∃ pl ∈ MediaCodec_GetName.profile_levels
    (info.getCapabilitiesForType psz_mime).val,
    U.convert_omx_to_profile_idc pl.profile = h264_profile))

/-- The selection criteria, as documented: the component is not blacklisted, is
not an encoder, answers the capability query, declares the MIME type and, when
a profile is asked for, passes the profile check, that is, declares a matching
profile level or belongs to the exempted family. -/
def MediaCodec_GetName.satisfies (U : OmxilUtils) (psz_mime : CStr) (h264_profile : Nat)
    (info : MediaCodecInfo) : Prop :=
  U.OMXCodec_IsBlacklisted info.getName info.getName.length = false
  ∧ info.isEncoder = false
  ∧ (info.getCapabilitiesForType psz_mime).raised = false
  ∧ psz_mime ∈ info.getSupportedTypes
  ∧ (h264_profile ≠ 0 →
      MediaCodec_GetName.declaresProfile U psz_mime h264_profile info
      ∨ MediaCodec_GetName.beginsWithLUME info.getName)

instance (U : OmxilUtils) (psz_mime : CStr) (h264_profile : Nat) (info : MediaCodecInfo) :
    Decidable (MediaCodec_GetName.satisfies U psz_mime h264_profile info) :=
  inferInstanceAs (Decidable (
    U.OMXCodec_IsBlacklisted info.getName info.getName.length = false
    ∧ info.isEncoder = false
    ∧ (info.getCapabilitiesForType psz_mime).raised = false
    ∧ psz_mime ∈ info.getSupportedTypes
    ∧ (h264_profile ≠ 0 →
        MediaCodec_GetName.declaresProfile U psz_mime h264_profile info
        ∨ MediaCodec_GetName.beginsWithLUME info.getName)))

/-- The name is a proper beginning of "OMX.LUMEVideoDecoder": it is shorter than
the twenty bytes of that constant and agrees with it on its whole length. -/
def MediaCodec_GetName.shortOfLUME (name : CStr) : Prop :=
  name.length < 20 ∧ name = (ascii "OMX.LUMEVideoDecoder").take name.length

instance (name : CStr) : Decidable (MediaCodec_GetName.shortOfLUME name) :=
  inferInstanceAs (Decidable
    (name.length < 20 ∧ name = (ascii "OMX.LUMEVideoDecoder").take name.length))

/-- What the loop of `MediaCodec_GetName` accepts, as the properties below
establish: a component that meets the selection criteria, or one that meets
all of them but the profile check and whose name is a proper beginning of
"OMX.LUMEVideoDecoder". -/
def MediaCodec_GetName.accepted (U : OmxilUtils) (psz_mime : CStr) (h264_profile : Nat)
    (info : MediaCodecInfo) : Prop :=
  U.OMXCodec_IsBlacklisted info.getName info.getName.length = false
  ∧ info.isEncoder = false
  ∧ (info.getCapabilitiesForType psz_mime).raised = false
  ∧ psz_mime ∈ info.getSupportedTypes
  ∧ (h264_profile ≠ 0 →
      MediaCodec_GetName.declaresProfile U psz_mime h264_profile info
      ∨ MediaCodec_GetName.beginsWithLUME info.getName
      ∨ MediaCodec_GetName.shortOfLUME info.getName)

/-- None of the calls on the component that the code leaves unchecked raises. -/
def MediaCodecInfo.quiet (info : MediaCodecInfo) : Prop :=
  info.getCodecInfoAt_raised = false ∧ info.getName_raised = false
  ∧ info.isEncoder_raised = false ∧ info.getSupportedTypes_raised = false

instance (info : MediaCodecInfo) : Decidable info.quiet :=
  inferInstanceAs (Decidable (info.getCodecInfoAt_raised = false ∧ info.getName_raised = false
    ∧ info.isEncoder_raised = false ∧ info.getSupportedTypes_raised = false))

/-- The index of the component a call is made on, for the calls of the loop of
`MediaCodec_GetName`. -/
def Effect.component : Effect → Option Nat
  | Effect.getCodecInfoAt i => some i
  | Effect.getName i => some i
  | Effect.isEncoder i => some i
  | Effect.getCapabilitiesForType i _ => some i
  | Effect.getSupportedTypes i => some i
  | _ => none

/-! ## Concrete platforms and inputs -/

/-- A platform on which every class and member is found, nothing raises, every
allocation succeeds and the codec list is empty. -/
def Platform.lollipop : Platform where
  android_getEnv := some 1
  FindClass := fun _ => some 2
  GetMethodID := fun _ _ _ => some 3
  GetStaticMethodID := fun _ _ _ => some 4
  GetFieldID := fun _ _ _ => some 5
  NewStringUTF := fun _ => true
  getCodecCount := false
  registry := []
  malloc := fun _ => true
  createByCodecName := ⟨false, some 10⟩
  createVideoFormat := ⟨false, some 11⟩
  createAudioFormat := ⟨false, some 12⟩
  AWindowHandler_getSurface := fun _ => some 13
  setInteger := false
  configure := false
  start := false
  stop := false
  flush := false
  release := false
  getInputBuffers := ⟨false, some 14⟩
  getOutputBuffers := ⟨false, some 15⟩
  NewObject := ⟨false, some 16⟩
  dequeueInputBuffer := ⟨false, 0⟩
  GetObjectArrayElement := fun _ _ => some 17
  getInputBuffer := fun _ => ⟨false, some 18⟩
  GetDirectBufferCapacity := fun _ => 8
  GetDirectBufferAddress := fun _ => 4096
  queueInputBuffer := false
  dequeueOutputBuffer := ⟨false, INFO_TRY_AGAIN_LATER⟩
  pts_field := 0
  offset_field := 0
  size_field := 0
  getOutputBuffer := fun _ => ⟨false, some 19⟩
  getOutputFormat := ⟨false, some 20⟩
  tostring := false
  getInteger := fun _ => ⟨false, 0⟩
  releaseOutputBuffer := false

/-- The `lollipop` platform without the per-index accessors `getInputBuffer` and
`getOutputBuffer`, as before API 21. -/
def Platform.kitkat : Platform :=
  { Platform.lollipop with
    GetMethodID := fun _ name _ =>
      if name = "getInputBuffer" ∨ name = "getOutputBuffer" then none else some 3 }

/-- The process state once `InitJNIFields` has run on `lollipop`. -/
def Globals.lollipop : Globals := (InitJNIFields Platform.lollipop Globals.atLoad).globals

/-- The process state once `InitJNIFields` has run on `kitkat`. -/
def Globals.kitkat : Globals := (InitJNIFields Platform.kitkat Globals.atLoad).globals

/-- A session as `calloc` leaves it, for video. -/
def mc_api.video0 : mc_api := ⟨true, false, false, false, ⟨none, none, none, none⟩⟩

/-- An `OmxilUtils` that blacklists no name and converts OMX profile 1 to
`profile_idc` 66, 2 to 77 and 8 to 100. -/
def OmxilUtils.sample : OmxilUtils where
  OMXCodec_IsBlacklisted := fun _ _ => false
  convert_omx_to_profile_idc := fun p =>
    if p = 1 then 66 else if p = 2 then 77 else if p = 8 then 100 else 0

/-- An H.264 encoder that lists "video/avc" and the baseline profile. -/
def MediaCodecInfo.avcEncoder : MediaCodecInfo where
  getName := ascii "OMX.qcom.video.encoder.avc"
  isEncoder := true
  getCapabilitiesForType := fun mime =>
    if mime = ascii "video/avc" then ⟨false, some ⟨some [⟨1, 512⟩]⟩⟩ else ⟨true, none⟩
  getSupportedTypes := [ascii "video/avc"]
  getCodecInfoAt_raised := false
  getName_raised := false
  isEncoder_raised := false
  getSupportedTypes_raised := false

/-- An H.264 decoder that lists "video/avc" and the baseline and high profiles. -/
def MediaCodecInfo.avcDecoder : MediaCodecInfo where
  getName := ascii "OMX.qcom.video.decoder.avc"
  isEncoder := false
  getCapabilitiesForType := fun mime =>
    if mime = ascii "video/avc" then ⟨false, some ⟨some [⟨1, 512⟩, ⟨8, 512⟩]⟩⟩
    else ⟨true, none⟩
  getSupportedTypes := [ascii "video/avc"]
  getCodecInfoAt_raised := false
  getName_raised := false
  isEncoder_raised := false
  getSupportedTypes_raised := false

/-- A second H.264 decoder with the same capabilities as `avcDecoder`. -/
def MediaCodecInfo.avcDecoder2 : MediaCodecInfo where
  getName := ascii "OMX.Exynos.avc.dec"
  isEncoder := false
  getCapabilitiesForType := fun mime =>
    if mime = ascii "video/avc" then ⟨false, some ⟨some [⟨1, 512⟩, ⟨8, 512⟩]⟩⟩
    else ⟨true, none⟩
  getSupportedTypes := [ascii "video/avc"]
  getCodecInfoAt_raised := false
  getName_raised := false
  isEncoder_raised := false
  getSupportedTypes_raised := false

/-- A decoder of "video/avc" that exposes no profile and whose name, of 13
bytes, is "OMX.LUMEVideo". -/
def MediaCodecInfo.lumeShort : MediaCodecInfo where
  getName := ascii "OMX.LUMEVideo"
  isEncoder := false
  getCapabilitiesForType := fun mime =>
    if mime = ascii "video/avc" then ⟨false, some ⟨none⟩⟩ else ⟨true, none⟩
  getSupportedTypes := [ascii "video/avc"]
  getCodecInfoAt_raised := false
  getName_raised := false
  isEncoder_raised := false
  getSupportedTypes_raised := false

/-- A decoder of "video/avc" that declares the baseline profile only and whose
name, of 8 bytes, is "OMX.LUME". -/
def MediaCodecInfo.lumeBaseline : MediaCodecInfo where
  getName := ascii "OMX.LUME"
  isEncoder := false
  getCapabilitiesForType := fun mime =>
    if mime = ascii "video/avc" then ⟨false, some ⟨some [⟨1, 512⟩]⟩⟩ else ⟨true, none⟩
  getSupportedTypes := [ascii "video/avc"]
  getCodecInfoAt_raised := false
  getName_raised := false
  isEncoder_raised := false
  getSupportedTypes_raised := false

/-- A decoder of "video/avc" that exposes no profile and whose name, of 3
bytes, is "OMX". -/
def MediaCodecInfo.omxPrefix : MediaCodecInfo where
  getName := ascii "OMX"
  isEncoder := false
  getCapabilitiesForType := fun mime =>
    if mime = ascii "video/avc" then ⟨false, some ⟨none⟩⟩ else ⟨true, none⟩
  getSupportedTypes := [ascii "video/avc"]
  getCodecInfoAt_raised := false
  getName_raised := false
  isEncoder_raised := false
  getSupportedTypes_raised := false

/-- A decoder like `avcDecoder` whose `getSupportedTypes` raises and returns
no type. -/
def MediaCodecInfo.typesRaise : MediaCodecInfo :=
  { MediaCodecInfo.avcDecoder with
    getName := ascii "OMX.SEC.avc.dec"
    getSupportedTypes := []
    getSupportedTypes_raised := true }

/-- The `lollipop` platform with a given codec list. -/
def Platform.withRegistry (l : List MediaCodecInfo) : Platform :=
  { Platform.lollipop with registry := l }

/-- The `lollipop` platform on which, of the four buffer accessors, only
`getInputBuffers` exists. -/
def Platform.inputArrayOnly : Platform :=
  { Platform.lollipop with
    GetMethodID := fun _ name _ =>
      if name = "getInputBuffer" ∨ name = "getOutputBuffers" ∨ name = "getOutputBuffer"
      then none else some 3 }

/-- The process state once `InitJNIFields` has run on `inputArrayOnly`. -/
def Globals.inputArrayOnly : Globals :=
  (InitJNIFields Platform.inputArrayOnly Globals.atLoad).globals

/-- Video arguments of 1280 by 720, no rotation and no window handler. -/
def mc_api_args.noSurface : mc_api_args := ⟨⟨1280, 720, 0, none⟩, ⟨0, 0⟩⟩

/-- Video arguments of 1280 by 720, rotated by 90 degrees, with a window handler. -/
def mc_api_args.rotated : mc_api_args := ⟨⟨1280, 720, 90, some 7⟩, ⟨0, 0⟩⟩

/-- The `lollipop` platform when no input slot becomes free within the timeout. -/
def Platform.noInputSlot : Platform :=
  { Platform.lollipop with dequeueInputBuffer := ⟨false, INFO_TRY_AGAIN_LATER⟩ }

/-- The `lollipop` platform when the input buffer reports the capacity -1. -/
def Platform.badCapacity : Platform :=
  { Platform.lollipop with GetDirectBufferCapacity := fun _ => -1 }

/-- A started video session that holds codec 10 and buffer-info object 16. -/
def mc_api.started : mc_api := ⟨true, true, false, false, ⟨some 10, some 16, none, none⟩⟩

/-! ## What GetOutput, Stop and the failure of Start are stated on -/

/-- The output buffer `GetOutput` fetches outside direct rendering: an element of
the cached array when `jfields.get_output_buffers` is set, the answer of
`getOutputBuffer` otherwise. Only the second is followed by `CHECK_EXCEPTION()`. -/
def GetOutput.buf (P : Platform) (g : Globals) (api : mc_api) : Ret (Option Handle) :=
  if (g.jfields JField.get_output_buffers).isSome then
    ⟨false, P.GetObjectArrayElement api.p_sys.output_buffers P.dequeueOutputBuffer.val⟩
  else
    P.getOutputBuffer P.dequeueOutputBuffer.val

/-- The value the output format gives for a key: what `getInteger` returns, and 0
when the lookup raises or the key string cannot be made. -/
def Platform.formatValue (P : Platform) (key : CStr) : Int :=
  if P.NewStringUTF key = true ∧ (P.getInteger key).raised = false then (P.getInteger key).val
  else 0

/-- The keys `GetOutput` reads for a video session, in the order of the fields. -/
def GetOutput.videoKeys : List CStr :=
  [ascii "width", ascii "height", ascii "stride", ascii "slice-height", ascii "color-format",
    ascii "crop-left", ascii "crop-top", ascii "crop-right", ascii "crop-bottom"]

/-- The keys `GetOutput` reads for an audio session, in the order of the fields. -/
def GetOutput.audioKeys : List CStr :=
  [ascii "channel-count", ascii "channel-mask", ascii "sample-rate"]

/-- The keys of the calls of `getInteger` in a trace, in order. -/
def Effect.keys (tr : List Effect) : List jstring :=
  tr.filterMap fun e =>
    match e with
    | Effect.getInteger _ key => some key
    | _ => none

/-- The calls of `MediaCodec.stop` and `MediaCodec.release` in a trace, in order. -/
def Effect.teardown (tr : List Effect) : List Effect :=
  tr.filter fun e =>
    match e with
    | Effect.stop _ => true
    | Effect.release _ => true
    | _ => false

/-- The calls of `MediaCodec.start` in a trace, in order. -/
def Effect.starts (tr : List Effect) : List Effect :=
  tr.filter fun e =>
    match e with
    | Effect.start _ => true
    | _ => false

/-- The calls of `MediaFormat.setInteger` in a trace, in order. -/
def Effect.setIntegers (tr : List Effect) : List Effect :=
  tr.filter fun e =>
    match e with
    | Effect.setInteger _ _ _ => true
    | _ => false

/-- A session that holds nothing: every handle of `mc_api_sys` is null. -/
def mc_api_sys.closed : mc_api_sys := ⟨none, none, none, none⟩

/-! ## Further concrete platforms and inputs -/

/-- An `mc_api_out` with every member zero. -/
def mc_api_out.zero : mc_api_out :=
  ⟨mc_api_out_type.MC_OUT_TYPE_BUF, ⟨0, 0, none, 0⟩, ⟨0, 0, 0, 0, 0, 0, 0, 0, 0⟩, ⟨0, 0, 0⟩⟩

/-- The `lollipop` platform when output buffer 3 is ready, at offset 16, of
size 1000 and with timestamp 40000. -/
def Platform.outputReady : Platform :=
  { Platform.lollipop with
    dequeueOutputBuffer := ⟨false, 3⟩
    pts_field := 40000
    offset_field := 16
    size_field := 1000 }

/-- The `outputReady` platform when `getOutputBuffer` raises. -/
def Platform.outputBufferRaises : Platform :=
  { Platform.outputReady with getOutputBuffer := fun _ => ⟨true, none⟩ }

/-- The `lollipop` platform when the output format changed: the format holds
width 1280 and height 720, and looking up "stride" raises. -/
def Platform.formatChanged : Platform :=
  { Platform.lollipop with
    dequeueOutputBuffer := ⟨false, INFO_OUTPUT_FORMAT_CHANGED⟩
    getInteger := fun key =>
      if key = ascii "width" then ⟨false, 1280⟩
      else if key = ascii "height" then ⟨false, 720⟩
      else if key = ascii "stride" then ⟨true, 7⟩
      else ⟨false, 0⟩ }

/-- The `formatChanged` platform when `MediaFormat.toString` raises. -/
def Platform.formatStringRaises : Platform :=
  { Platform.formatChanged with tostring := true }

/-- The `kitkat` platform when the set of output buffers changed; the new
array is handle 25. -/
def Platform.buffersChanged : Platform :=
  { Platform.kitkat with
    dequeueOutputBuffer := ⟨false, INFO_OUTPUT_BUFFERS_CHANGED⟩
    getOutputBuffers := ⟨false, some 25⟩ }

/-- A started video session on `kitkat`, with both buffer arrays cached. -/
def mc_api.startedArrays : mc_api :=
  ⟨true, true, false, false, ⟨some 10, some 16, some 14, some 15⟩⟩

/-- The `lollipop` platform when `MediaCodec.configure` raises. -/
def Platform.configureRaises : Platform :=
  { Platform.lollipop with configure := true }

/-- The `lollipop` platform when the construction of the buffer-info object raises. -/
def Platform.bufferInfoRaises : Platform :=
  { Platform.lollipop with NewObject := ⟨true, none⟩ }

/-- A started video session that holds codec 30 and buffer-info object 31. -/
def mc_api.startedOld : mc_api := ⟨true, true, false, false, ⟨some 30, some 31, none, none⟩⟩

/-! # Properties -/

/-! ## String comparison -/

theorem memcmp_eq_zero_iff (n : Nat) : ∀ (s t : List Nat), s.length = n → t.length = n →
    (memcmp s t n = 0 ↔ s = t) := by
  induction n with
  | zero =>
    intro s t hs ht
    have h1 : s = [] := List.length_eq_zero.mp hs
    have h2 : t = [] := List.length_eq_zero.mp ht
    subst h1; subst h2
    simp [memcmp]
  | succ n ih =>
    intro s t hs ht
    cases s with
    | nil => simp at hs
    | cons a s =>
      cases t with
      | nil => simp at ht
      | cons b t =>
        simp only [List.length_cons, Nat.add_right_cancel_iff] at hs ht
        by_cases hab : a = b
        · subst hab
          simp [memcmp, ih s t hs ht]
        · have hne : (a : Int) - (b : Int) ≠ 0 := by omega
          simp [memcmp, hab, hne]

theorem jstrcmp_eq_zero_iff (str str2 : CStr) : jstrcmp str str2 = 0 ↔ str = str2 := by
  unfold jstrcmp
  by_cases hlen : str.length = str2.length
  · simp only [hlen, ne_eq, not_true_eq_false, if_false]
    exact memcmp_eq_zero_iff str2.length str str2 hlen rfl
  · have hne : str ≠ str2 := fun h => hlen (by rw [h])
    simp [hlen, hne]

/-! ## MediaCodec_GetName -/

theorem profileLoop_eq (U : OmxilUtils) (h264_profile : Nat) :
    ∀ (l : List CodecProfileLevel) (found : Bool),
      MediaCodec_GetName.profileLoop U h264_profile l found
        = (found || l.any (fun pl => decide (U.convert_omx_to_profile_idc pl.profile = h264_profile))) := by
  intro l
  induction l with
  | nil => intro found; simp [MediaCodec_GetName.profileLoop]
  | cons pl rest ih =>
    intro found
    cases found with
    | true => simp [MediaCodec_GetName.profileLoop]
    | false =>
      by_cases h : U.convert_omx_to_profile_idc pl.profile = h264_profile
      · simp [MediaCodec_GetName.profileLoop, h, ih]
      · simp [MediaCodec_GetName.profileLoop, h, ih]

/-- Over `n` bytes that both strings have, `strncmp` is 0 exactly when the
strings agree on them. -/
theorem strncmp_eq_zero_iff : ∀ (n : Nat) (s1 s2 : CStr), n ≤ s1.length → n ≤ s2.length →
    (strncmp s1 s2 n = 0 ↔ s1.take n = s2.take n)
  | 0, s1, s2, _, _ => by simp [strncmp]
  | n + 1, [], _, h1, _ => by simp at h1
  | n + 1, _ :: _, [], _, h2 => by simp at h2
  | n + 1, a :: s1, b :: s2, h1, h2 => by
    have ih := strncmp_eq_zero_iff n s1 s2 (by simpa using h1) (by simpa using h2)
    by_cases hab : a = b
    · subst hab
      simp [strncmp, ih]
    · have hne : (a : Int) - (b : Int) ≠ 0 := by omega
      simp [strncmp, hab, hne]

/-- The test the code makes on the name of a component passes for the names that
begin with "OMX.LUMEVideoDecoder" and for the proper beginnings of that constant,
and for no other name. -/
theorem strncmp_LUME_iff (name : CStr) :
    strncmp name (ascii "OMX.LUMEVideoDecoder") (min 20 name.length) = 0
      ↔ (MediaCodec_GetName.beginsWithLUME name ∨ MediaCodec_GetName.shortOfLUME name) := by
  have hlen : (ascii "OMX.LUMEVideoDecoder").length = 20 := by decide
  rw [strncmp_eq_zero_iff _ _ _ (min_le_right _ _) (by rw [hlen]; exact min_le_left _ _)]
  unfold MediaCodec_GetName.beginsWithLUME MediaCodec_GetName.shortOfLUME
  by_cases h : 20 ≤ name.length
  · rw [min_eq_left h]
    have htake : (ascii "OMX.LUMEVideoDecoder").take 20 = ascii "OMX.LUMEVideoDecoder" := by
      decide
    rw [htake]
    constructor
    · intro h1; exact Or.inl h1
    · rintro (h1 | ⟨h2, _⟩)
      · exact h1
      · omega
  · have hlt : name.length < 20 := by omega
    rw [min_eq_right (le_of_lt hlt), List.take_length]
    constructor
    · intro h1; exact Or.inr ⟨hlt, h1⟩
    · rintro (h1 | ⟨_, h2⟩)
      · exfalso
        have h3 := congrArg List.length h1
        rw [List.length_take, hlen] at h3
        omega
      · exact h2

/-- The outcome of the checks made on a component once one of its types equals
the MIME type. -/
theorem profileCheck_iff (U : OmxilUtils) (psz_mime : CStr) (h264_profile : Nat)
    (info : MediaCodecInfo) :
    MediaCodec_GetName.profileLoop U h264_profile
        (MediaCodec_GetName.profile_levels (info.getCapabilitiesForType psz_mime).val)
        (if strncmp info.getName (ascii "OMX.LUMEVideoDecoder") (min 20 info.getName.length) = 0
          then true else false) = true
      ↔ (MediaCodec_GetName.declaresProfile U psz_mime h264_profile info
          ∨ MediaCodec_GetName.beginsWithLUME info.getName
          ∨ MediaCodec_GetName.shortOfLUME info.getName) := by
  rw [profileLoop_eq, ← strncmp_LUME_iff]
  unfold MediaCodec_GetName.declaresProfile
  by_cases hb : strncmp info.getName (ascii "OMX.LUMEVideoDecoder") (min 20 info.getName.length) = 0
  · simp [hb]
  · simp [hb]

theorem typeLoop_eq (U : OmxilUtils) (psz_mime : CStr) (h264_profile : Nat)
    (info : MediaCodecInfo) :
    ∀ (types : List CStr) (found : Bool),
      MediaCodec_GetName.typeLoop U psz_mime h264_profile info.getName info.getName.length
        (MediaCodec_GetName.profile_levels (info.getCapabilitiesForType psz_mime).val)
        types found = true
      ↔ (found = true ∨ (psz_mime ∈ types ∧ (h264_profile ≠ 0 →
          MediaCodec_GetName.declaresProfile U psz_mime h264_profile info
          ∨ MediaCodec_GetName.beginsWithLUME info.getName
          ∨ MediaCodec_GetName.shortOfLUME info.getName))) := by
  intro types
  induction types with
  | nil => intro found; simp [MediaCodec_GetName.typeLoop]
  | cons type rest ih =>
    intro found
    cases found with
    | true => simp [MediaCodec_GetName.typeLoop]
    | false =>
      unfold MediaCodec_GetName.typeLoop
      simp only [Bool.false_eq_true, if_false, false_or]
      rw [ih]
      by_cases ht : type = psz_mime
      · subst ht
        have hj : jstrcmp type type = 0 := (jstrcmp_eq_zero_iff _ _).mpr rfl
        by_cases hz : h264_profile = 0
        · simp [hj, hz]
        · simp only [hj, if_true, ne_eq, hz, not_false_eq_true, if_false]
          rw [profileCheck_iff U type h264_profile info]
          simp only [List.mem_cons, true_or, true_and, forall_const]
          constructor
          · rintro (h | ⟨_, h⟩)
            · exact h
            · exact h
          · intro h; exact Or.inl h
      · have hj : ¬ jstrcmp type psz_mime = 0 := fun h => ht ((jstrcmp_eq_zero_iff _ _).mp h)
        have ht2 : ¬ psz_mime = type := fun h => ht h.symm
        simp [hj, ht2]

/-- Whatever exception is pending when the loop body is entered, it finds only a
component that the loop accepts. -/
theorem body_found_accepted (U : OmxilUtils) (psz_mime : CStr) (h264_profile : Nat)
    (pending : Bool) (i : Nat) (info : MediaCodecInfo)
    (h : (MediaCodec_GetName.body U psz_mime h264_profile pending i info).found = true) :
    MediaCodec_GetName.accepted U psz_mime h264_profile info := by
  unfold MediaCodec_GetName.body at h
  unfold MediaCodec_GetName.accepted
  cases hb : U.OMXCodec_IsBlacklisted info.getName info.getName.length with
  | true => simp [hb] at h
  | false =>
    cases he : info.isEncoder with
    | true => simp [hb, he] at h
    | false =>
      cases hr : (info.getCapabilitiesForType psz_mime).raised with
      | true => simp [hb, he, hr] at h
      | false =>
        cases hp : (pending || info.getCodecInfoAt_raised || info.getName_raised
            || info.isEncoder_raised) with
        | true => simp [hb, he, hr, hp] at h
        | false =>
          simp only [hb, he, hr, hp, Bool.false_eq_true, if_false, Bool.or_false] at h
          rw [typeLoop_eq] at h
          simpa using h

/-- Entered with no exception pending, on a component none of whose unchecked
calls raises, the loop body finds the component exactly when the loop accepts
it, and leaves no exception pending. -/
theorem body_quiet (U : OmxilUtils) (psz_mime : CStr) (h264_profile : Nat) (i : Nat)
    (info : MediaCodecInfo) (hq : info.quiet) :
    ((MediaCodec_GetName.body U psz_mime h264_profile false i info).found = true
      ↔ MediaCodec_GetName.accepted U psz_mime h264_profile info)
    ∧ (MediaCodec_GetName.body U psz_mime h264_profile false i info).pending = false := by
  obtain ⟨h1, h2, h3, h4⟩ := hq
  unfold MediaCodec_GetName.body MediaCodec_GetName.accepted
  cases hb : U.OMXCodec_IsBlacklisted info.getName info.getName.length with
  | true => simp [hb, h1, h2]
  | false =>
    cases he : info.isEncoder with
    | true => simp [hb, he, h1, h2, h3]
    | false =>
      cases hr : (info.getCapabilitiesForType psz_mime).raised with
      | true => simp [hb, he, hr, h1, h2, h3]
      | false =>
        simp only [hb, he, hr, h1, h2, h3, h4, Bool.false_eq_true, if_false, true_and,
          Bool.or_false, and_true]
        rw [typeLoop_eq]
        simp

/-- Every call the loop body makes is made on the component it examines. -/
theorem body_trace_component (U : OmxilUtils) (psz_mime : CStr) (h264_profile : Nat)
    (pending : Bool) (i : Nat) (info : MediaCodecInfo) (e : Effect)
    (he : e ∈ (MediaCodec_GetName.body U psz_mime h264_profile pending i info).trace) :
    e.component = some i := by
  unfold MediaCodec_GetName.body at he
  by_cases hb : U.OMXCodec_IsBlacklisted info.getName info.getName.length = true
  · simp [hb] at he
    rcases he with h | h <;> subst h <;> rfl
  · by_cases hen : info.isEncoder = true
    · simp [hb, hen] at he
      rcases he with h | h | h <;> subst h <;> rfl
    · by_cases hr : (pending || info.getCodecInfoAt_raised || info.getName_raised
          || info.isEncoder_raised || (info.getCapabilitiesForType psz_mime).raised) = true
      · simp only [hb, hen, hr, Bool.false_eq_true, if_false, if_true] at he
        simp at he
        rcases he with h | h | h | h <;> subst h <;> rfl
      · simp only [hb, hen, hr, Bool.false_eq_true, if_false] at he
        simp at he
        rcases he with h | h | h | h | h <;> subst h <;> rfl

/-- The supported types of an encoder are never asked for. -/
theorem body_trace_types (U : OmxilUtils) (psz_mime : CStr) (h264_profile : Nat)
    (pending : Bool) (i j : Nat) (info : MediaCodecInfo)
    (he : Effect.getSupportedTypes j
      ∈ (MediaCodec_GetName.body U psz_mime h264_profile pending i info).trace) :
    info.isEncoder = false := by
  unfold MediaCodec_GetName.body at he
  by_cases hb : U.OMXCodec_IsBlacklisted info.getName info.getName.length = true
  · simp [hb] at he
  · by_cases hen : info.isEncoder = true
    · simp [hb, hen] at he
    · simpa using hen

theorem loop_trace (U : OmxilUtils) (P : Platform) (psz_mime : CStr) (h264_profile : Nat) :
    ∀ (rest : List MediaCodecInfo) (i : Nat) (pending : Bool) (tr : List Effect) (e : Effect),
      e ∈ (MediaCodec_GetName.loop U P psz_mime h264_profile rest i pending tr).trace →
      e ∈ tr ∨ ∃ k c q, rest[k]? = some c
        ∧ e ∈ (MediaCodec_GetName.body U psz_mime h264_profile q (i + k) c).trace := by
  intro rest
  induction rest with
  | nil => intro i pending tr e he; left; simpa [MediaCodec_GetName.loop] using he
  | cons info rest ih =>
    intro i pending tr e he
    unfold MediaCodec_GetName.loop at he
    by_cases hf : (MediaCodec_GetName.body U psz_mime h264_profile pending i info).found = true
    · simp only [hf, if_true, List.mem_append] at he
      rcases he with h | h
      · exact Or.inl h
      · exact Or.inr ⟨0, info, pending, by simp, by simpa using h⟩
    · simp only [hf, if_false] at he
      rcases ih (i + 1) _ _ e he with h | ⟨k, c, q, hk, hc⟩
      · rcases List.mem_append.mp h with h | h
        · exact Or.inl h
        · exact Or.inr ⟨0, info, pending, by simp, by simpa using h⟩
      · refine Or.inr ⟨k + 1, c, q, by simpa using hk, ?_⟩
        have : i + 1 + k = i + (k + 1) := by omega
        rw [← this]; exact hc

theorem loop_some (U : OmxilUtils) (P : Platform) (psz_mime : CStr) (h264_profile : Nat) :
    ∀ (rest : List MediaCodecInfo) (i : Nat) (pending : Bool) (tr : List Effect) (name : CStr),
      (MediaCodec_GetName.loop U P psz_mime h264_profile rest i pending tr).psz_name
        = some name →
      ∃ info ∈ rest, info.getName = name
        ∧ MediaCodec_GetName.accepted U psz_mime h264_profile info := by
  intro rest
  induction rest with
  | nil => intro i pending tr name h; simp [MediaCodec_GetName.loop] at h
  | cons info rest ih =>
    intro i pending tr name h
    unfold MediaCodec_GetName.loop at h
    by_cases hf : (MediaCodec_GetName.body U psz_mime h264_profile pending i info).found = true
    · simp only [hf, if_true] at h
      by_cases hm : P.malloc (info.getName.length + 1) = true
      · simp only [hm, if_true, Option.some.injEq] at h
        exact ⟨info, by simp, h, body_found_accepted U psz_mime h264_profile pending i info hf⟩
      · simp [hm] at h
    · simp only [hf, if_false] at h
      obtain ⟨c, hc, hn, hs⟩ := ih (i + 1) _ _ name h
      exact ⟨c, List.mem_cons_of_mem _ hc, hn, hs⟩

theorem loop_first (U : OmxilUtils) (P : Platform) (psz_mime : CStr) (h264_profile : Nat) :
    ∀ (rest : List MediaCodecInfo) (i : Nat) (tr : List Effect) (k : Nat) (info : MediaCodecInfo),
      (∀ c ∈ rest, c.quiet) →
      rest[k]? = some info →
      MediaCodec_GetName.accepted U psz_mime h264_profile info →
      (∀ j < k, ∀ c, rest[j]? = some c →
        ¬ MediaCodec_GetName.accepted U psz_mime h264_profile c) →
      (MediaCodec_GetName.loop U P psz_mime h264_profile rest i false tr).psz_name
          = (if P.malloc (info.getName.length + 1) then some info.getName else none)
      ∧ ∀ e ∈ (MediaCodec_GetName.loop U P psz_mime h264_profile rest i false tr).trace,
          e ∈ tr ∨ ∃ j, j ≤ k ∧ e.component = some (i + j) := by
  intro rest
  induction rest with
  | nil => intro i tr k info _ hk; simp at hk
  | cons c rest ih =>
    intro i tr k info hq hk hs hfirst
    have hqc : c.quiet := hq c (by simp)
    obtain ⟨hfound, hpend⟩ := body_quiet U psz_mime h264_profile i c hqc
    cases k with
    | zero =>
      simp only [List.getElem?_cons_zero, Option.some.injEq] at hk
      subst hk
      have hf := hfound.mpr hs
      unfold MediaCodec_GetName.loop
      simp only [hf, if_true, true_and]
      intro e he
      rcases List.mem_append.mp he with h | h
      · exact Or.inl h
      · exact Or.inr ⟨0, le_refl _,
          body_trace_component U psz_mime h264_profile false i c e h⟩
    | succ k =>
      have hc : ¬ MediaCodec_GetName.accepted U psz_mime h264_profile c :=
        hfirst 0 (Nat.succ_pos k) c (by simp)
      have hf : ¬ (MediaCodec_GetName.body U psz_mime h264_profile false i c).found = true :=
        fun h => hc (hfound.mp h)
      have hk2 : rest[k]? = some info := by simpa using hk
      have hfirst2 : ∀ j < k, ∀ c, rest[j]? = some c →
          ¬ MediaCodec_GetName.accepted U psz_mime h264_profile c := by
        intro j hj c2 hc2
        exact hfirst (j + 1) (Nat.succ_lt_succ hj) c2 (by simpa using hc2)
      obtain ⟨h1, h2⟩ := ih (i + 1)
        (tr ++ (MediaCodec_GetName.body U psz_mime h264_profile false i c).trace) k info
        (fun c2 hc2 => hq c2 (List.mem_cons_of_mem _ hc2)) hk2 hs hfirst2
      unfold MediaCodec_GetName.loop
      simp only [hf, if_false, hpend]
      refine ⟨h1, ?_⟩
      intro e he
      rcases h2 e he with h | ⟨j, hj, hcomp⟩
      · rcases List.mem_append.mp h with h | h
        · exact Or.inl h
        · exact Or.inr ⟨0, Nat.zero_le _,
            body_trace_component U psz_mime h264_profile false i c e h⟩
      · refine Or.inr ⟨j + 1, Nat.succ_le_succ hj, ?_⟩
        have : i + 1 + j = i + (j + 1) := by omega
        rw [← this]; exact hcomp

/-- A list with an element that has a property has a first such element. -/
theorem exists_first_index {α : Type} (p : α → Prop) :
    ∀ (l : List α), (∃ c ∈ l, p c) →
      ∃ (k : Nat) (c : α), l[k]? = some c ∧ p c
        ∧ ∀ (j : Nat), j < k → ∀ c2, l[j]? = some c2 → ¬ p c2 := by
  intro l
  induction l with
  | nil => rintro ⟨c, hc, _⟩; simp at hc
  | cons a l ih =>
    rintro ⟨c, hc, hp⟩
    by_cases ha : p a
    · exact ⟨0, a, by simp, ha, by intro j hj; omega⟩
    · have hc2 : c ∈ l := by
        rcases List.mem_cons.mp hc with h | h
        · subst h; exact absurd hp ha
        · exact h
      obtain ⟨k, c3, hk, hp3, hfirst⟩ := ih ⟨c, hc2, hp⟩
      refine ⟨k + 1, c3, by simpa using hk, hp3, ?_⟩
      intro j hj c2 hj2
      cases j with
      | zero =>
        simp only [List.getElem?_cons_zero, Option.some.injEq] at hj2
        subst hj2; exact ha
      | succ j => exact hfirst j (by omega) c2 (by simpa using hj2)

/-- For a name that is no proper beginning of "OMX.LUMEVideoDecoder", what the
loop accepts is what meets the selection criteria. -/
theorem accepted_iff_satisfies (U : OmxilUtils) (psz_mime : CStr) (h264_profile : Nat)
    (info : MediaCodecInfo) (h : ¬ MediaCodec_GetName.shortOfLUME info.getName) :
    MediaCodec_GetName.accepted U psz_mime h264_profile info
      ↔ MediaCodec_GetName.satisfies U psz_mime h264_profile info := by
  unfold MediaCodec_GetName.accepted MediaCodec_GetName.satisfies
  constructor
  · rintro ⟨a, b, c, d, e⟩
    refine ⟨a, b, c, d, fun hp => ?_⟩
    rcases e hp with h1 | h1 | h1
    · exact Or.inl h1
    · exact Or.inr h1
    · exact absurd h1 h
  · rintro ⟨a, b, c, d, e⟩
    refine ⟨a, b, c, d, fun hp => ?_⟩
    rcases e hp with h1 | h1
    · exact Or.inl h1
    · exact Or.inr (Or.inl h1)

/-! ## InitJNIFields -/

theorem classLoop_trace (P : Platform) :
    ∀ (cs : List classname) (jf : JFields) (tr : List Effect) (e : Effect),
      e ∈ (InitJNIFields.classLoop P cs jf tr).2.2 → e ∈ tr ∨ e.component = none := by
  intro cs
  induction cs with
  | nil => intro jf tr e he; exact Or.inl (by simpa [InitJNIFields.classLoop] using he)
  | cons c rest ih =>
    intro jf tr e he
    unfold InitJNIFields.classLoop at he
    cases hc : P.FindClass c.name with
    | none =>
      simp only [hc, List.mem_append, List.mem_singleton] at he
      rcases he with h | h
      · exact Or.inl h
      · subst h; exact Or.inr rfl
    | some clazz =>
      simp only [hc] at he
      rcases ih _ _ e he with h | h
      · rcases List.mem_append.mp h with h | h
        · exact Or.inl h
        · simp only [List.mem_singleton] at h
          subst h; exact Or.inr rfl
      · exact Or.inr h

theorem lookupEffect_component (last_class : Option Handle) (m : member) :
    (InitJNIFields.lookupEffect last_class m).component = none := by
  unfold InitJNIFields.lookupEffect
  cases m.type <;> rfl

theorem mem_snoc_component {tr : List Effect} {x e : Effect} (hx : x.component = none)
    (he : e ∈ tr ++ [x]) : e ∈ tr ∨ e.component = none := by
  rcases List.mem_append.mp he with h | h
  · exact Or.inl h
  · simp only [List.mem_singleton] at h
    subst h; exact Or.inr hx

theorem memberLoop_trace (P : Platform) :
    ∀ (ms : List member) (prev : Option String) (last_class : Option Handle) (jf : JFields)
      (tr : List Effect) (e : Effect),
      e ∈ (InitJNIFields.memberLoop P ms prev last_class jf tr).2.2 →
      e ∈ tr ∨ e.component = none := by
  intro ms
  induction ms with
  | nil =>
    intro prev last_class jf tr e he
    exact Or.inl (by simpa [InitJNIFields.memberLoop] using he)
  | cons m rest ih =>
    intro prev last_class jf tr e he
    unfold InitJNIFields.memberLoop at he
    cases hfind : (prev != some m.cls) with
    | true =>
      simp only [hfind, if_true, Bool.true_and] at he
      split_ifs at he
      · exact mem_snoc_component (x := Effect.FindClass m.cls) rfl he
      · rcases mem_snoc_component (lookupEffect_component _ _) he with h | h
        · exact mem_snoc_component (x := Effect.FindClass m.cls) rfl h
        · exact Or.inr h
      · rcases ih _ _ _ _ e he with h | h
        · rcases mem_snoc_component (lookupEffect_component _ _) h with h | h
          · exact mem_snoc_component (x := Effect.FindClass m.cls) rfl h
          · exact Or.inr h
        · exact Or.inr h
    | false =>
      simp only [hfind, Bool.false_eq_true, if_false, Bool.false_and] at he
      split_ifs at he
      · exact mem_snoc_component (lookupEffect_component _ _) he
      · rcases ih _ _ _ _ e he with h | h
        · exact mem_snoc_component (lookupEffect_component _ _) h
        · exact Or.inr h

/-- The first call of `InitJNIFields`, by the outcomes of its three stages. -/
theorem InitJNIFields_first (P : Platform) (g : Globals) (hg : g.i_init_state = -1) :
    InitJNIFields P g =
      if (InitJNIFields.classLoop P classes g.jfields []).1 = false then
        ⟨false, ⟨0, (InitJNIFields.classLoop P classes g.jfields []).2.1⟩,
          (InitJNIFields.classLoop P classes g.jfields []).2.2⟩
      else if (InitJNIFields.memberLoop P members none none
          (InitJNIFields.classLoop P classes g.jfields []).2.1
          (InitJNIFields.classLoop P classes g.jfields []).2.2).1 = false then
        ⟨false, ⟨0, (InitJNIFields.memberLoop P members none none
          (InitJNIFields.classLoop P classes g.jfields []).2.1
          (InitJNIFields.classLoop P classes g.jfields []).2.2).2.1⟩,
          (InitJNIFields.memberLoop P members none none
          (InitJNIFields.classLoop P classes g.jfields []).2.1
          (InitJNIFields.classLoop P classes g.jfields []).2.2).2.2⟩
      else if (InitJNIFields.selectAccessors (InitJNIFields.memberLoop P members none none
          (InitJNIFields.classLoop P classes g.jfields []).2.1
          (InitJNIFields.classLoop P classes g.jfields []).2.2).2.1).1 = false then
        ⟨false, ⟨0, (InitJNIFields.selectAccessors (InitJNIFields.memberLoop P members none none
          (InitJNIFields.classLoop P classes g.jfields []).2.1
          (InitJNIFields.classLoop P classes g.jfields []).2.2).2.1).2⟩,
          (InitJNIFields.memberLoop P members none none
          (InitJNIFields.classLoop P classes g.jfields []).2.1
          (InitJNIFields.classLoop P classes g.jfields []).2.2).2.2⟩
      else
        ⟨true, ⟨1, (InitJNIFields.selectAccessors (InitJNIFields.memberLoop P members none none
          (InitJNIFields.classLoop P classes g.jfields []).2.1
          (InitJNIFields.classLoop P classes g.jfields []).2.2).2.1).2⟩,
          (InitJNIFields.memberLoop P members none none
          (InitJNIFields.classLoop P classes g.jfields []).2.1
          (InitJNIFields.classLoop P classes g.jfields []).2.2).2.2⟩ := by
  unfold InitJNIFields
  simp only [hg, bne_self_eq_false, Bool.false_eq_true, if_false]
  rcases hc : InitJNIFields.classLoop P classes g.jfields [] with ⟨b1, jf1, tr1⟩
  cases b1 with
  | false => simp
  | true =>
    simp only [Bool.true_eq_false, if_false]
    rcases hm : InitJNIFields.memberLoop P members none none jf1 tr1 with ⟨b2, jf2, tr2⟩
    cases b2 with
    | false => simp
    | true =>
      simp only [Bool.true_eq_false, if_false]
      rcases hs : InitJNIFields.selectAccessors jf2 with ⟨b3, jf3⟩
      cases b3 <;> simp

/-- The lookups of `InitJNIFields` are not calls on a component of the codec list. -/
theorem InitJNIFields_trace_component (P : Platform) (g : Globals) (e : Effect)
    (he : e ∈ (InitJNIFields P g).trace) : e.component = none := by
  by_cases hg : g.i_init_state = -1
  · rw [InitJNIFields_first P g hg] at he
    have hc := classLoop_trace P classes g.jfields [] e
    have hm := memberLoop_trace P members none none
      (InitJNIFields.classLoop P classes g.jfields []).2.1
      (InitJNIFields.classLoop P classes g.jfields []).2.2 e
    split_ifs at he
    · rcases hc he with h | h
      · simp at h
      · exact h
    all_goals
      rcases hm he with h | h
      · rcases hc h with h | h
        · simp at h
        · exact h
      · exact h
  · have hne : (g.i_init_state != -1) = true := by simpa using hg
    simp [InitJNIFields, hne] at he

/-- Once `InitJNIFields` has run, a further call returns what the first one
returned, looks nothing up and leaves the process state as it is. -/
theorem InitJNIFields_again (P P2 : Platform) (g : Globals) (hg : g.i_init_state = -1) :
    (InitJNIFields P2 (InitJNIFields P g).globals).ret = (InitJNIFields P g).ret
    ∧ (InitJNIFields P2 (InitJNIFields P g).globals).trace = []
    ∧ (InitJNIFields P2 (InitJNIFields P g).globals).globals = (InitJNIFields P g).globals := by
  rw [InitJNIFields_first P g hg]
  split_ifs <;> simp [InitJNIFields]

theorem classLoop_ok (P : Platform) :
    ∀ (cs : List classname) (jf : JFields) (tr : List Effect),
      (InitJNIFields.classLoop P cs jf tr).1 = true
        ↔ ∀ c ∈ cs, (P.FindClass c.name).isSome = true := by
  intro cs
  induction cs with
  | nil => intro jf tr; simp [InitJNIFields.classLoop]
  | cons c rest ih =>
    intro jf tr
    unfold InitJNIFields.classLoop
    cases hc : P.FindClass c.name with
    | none => simp [hc]
    | some clazz => simp [hc, ih]

theorem memberStores_cons (P : Platform) (m : member) (rest : List member) (jf : JFields) :
    InitJNIFields.memberStores P (m :: rest) jf
      = InitJNIFields.memberStores P rest (jf.set m.offset (P.member m)) := by
  simp [InitJNIFields.memberStores]

theorem memberLoop_spec (P : Platform) :
    ∀ (ms : List member) (prev : Option String) (last_class : Option Handle) (jf : JFields)
      (tr : List Effect),
      (∀ c, prev = some c → last_class = P.FindClass c ∧ last_class.isSome = true) →
      ((InitJNIFields.memberLoop P ms prev last_class jf tr).1 = true
        ↔ ∀ m ∈ ms, (P.FindClass m.cls).isSome = true
            ∧ (m.critical = true → (P.member m).isSome = true))
      ∧ ((InitJNIFields.memberLoop P ms prev last_class jf tr).1 = true →
          (InitJNIFields.memberLoop P ms prev last_class jf tr).2.1
            = InitJNIFields.memberStores P ms jf) := by
  intro ms
  induction ms with
  | nil =>
    intro prev last_class jf tr _
    simp [InitJNIFields.memberLoop, InitJNIFields.memberStores]
  | cons m rest ih =>
    intro prev last_class jf tr hinv
    have hlast : (if (prev != some m.cls) = true then P.FindClass m.cls else last_class)
        = P.FindClass m.cls := by
      by_cases h : prev = some m.cls
      · simp [h, (hinv _ h).1]
      · simp [h]
    rw [memberStores_cons]
    unfold InitJNIFields.memberLoop
    simp only [hlast]
    cases hc : P.FindClass m.cls with
    | none =>
      have hfind : (prev != some m.cls) = true := by
        by_cases h : prev = some m.cls
        · have := (hinv _ h)
          rw [this.1, hc] at this
          simp at this
        · simpa using h
      simp [hfind, hc]
    | some clazz =>
      have hmem : InitJNIFields.lookup P (some clazz) m = P.member m := by
        simp [Platform.member, hc]
      simp only [Option.isNone_some, Bool.and_false, Bool.false_eq_true, if_false, hmem]
      by_cases hcrit : ((P.member m).isNone && m.critical) = true
      · have h1 : (P.member m).isNone = true ∧ m.critical = true := by simpa using hcrit
        have h2 : ¬ ((P.member m).isSome = true) := by
          have := h1.1
          cases hpm : P.member m <;> simp_all
        simp only [hcrit, if_true, Bool.false_eq_true, false_iff, false_imp_iff, and_true]
        intro hall
        exact h2 ((hall m (by simp)).2 h1.2)
      · simp only [hcrit, Bool.false_eq_true, if_false]
        have hinv2 : ∀ c, some m.cls = some c →
            (some clazz : Option Handle) = P.FindClass c ∧ (some clazz : Option Handle).isSome = true := by
          intro c hcc
          simp only [Option.some.injEq] at hcc
          subst hcc
          exact ⟨hc.symm, rfl⟩
        obtain ⟨ih1, ih2⟩ := ih (some m.cls) (some clazz) (jf.set m.offset (P.member m))
          ((if (prev != some m.cls) = true then tr ++ [Effect.FindClass m.cls] else tr)
            ++ [InitJNIFields.lookupEffect (some clazz) m]) hinv2
        have hm : m.critical = true → (P.member m).isSome = true := by
          intro hcr
          cases hpm : P.member m with
          | none => simp [hpm, hcr] at hcrit
          | some _ => rfl
        refine ⟨?_, ?_⟩
        · rw [ih1]
          constructor
          · intro h x hx
            rcases List.mem_cons.mp hx with hx | hx
            · subst hx; exact ⟨by simp [hc], hm⟩
            · exact h x hx
          · intro h x hx
            exact h x (List.mem_cons_of_mem _ hx)
        · exact ih2

theorem memberStores_get_input_buffers (P : Platform) (jf : JFields) :
    InitJNIFields.memberStores P members jf JField.get_input_buffers
      = P.member member.getInputBuffers := rfl

theorem memberStores_get_input_buffer (P : Platform) (jf : JFields) :
    InitJNIFields.memberStores P members jf JField.get_input_buffer
      = P.member member.getInputBuffer := rfl

theorem memberStores_get_output_buffers (P : Platform) (jf : JFields) :
    InitJNIFields.memberStores P members jf JField.get_output_buffers
      = P.member member.getOutputBuffers := rfl

theorem memberStores_get_output_buffer (P : Platform) (jf : JFields) :
    InitJNIFields.memberStores P members jf JField.get_output_buffer
      = P.member member.getOutputBuffer := rfl

/-- The test that ends `InitJNIFields`, read on the table the member loop left. -/
theorem selectAccessors_ok (P : Platform) (jf : JFields) :
    (InitJNIFields.selectAccessors (InitJNIFields.memberStores P members jf)).1 = true
      ↔ P.accessorsPass := by
  unfold InitJNIFields.selectAccessors Platform.accessorsPass
  rw [memberStores_get_input_buffers, memberStores_get_input_buffer,
    memberStores_get_output_buffers, memberStores_get_output_buffer]
  cases h1 : P.member member.getInputBuffer <;> cases h2 : P.member member.getOutputBuffer <;>
    cases h3 : P.member member.getOutputBuffers <;>
    cases h4 : P.member member.getInputBuffers <;> simp

/-- The first call of `InitJNIFields` succeeds exactly when every class is found,
every critical member is found and the test on the buffer accessors passes. -/
theorem InitJNIFields_ret_iff (P : Platform) (g : Globals) (hg : g.i_init_state = -1) :
    (InitJNIFields P g).ret = true
      ↔ ((∀ c ∈ classes, (P.FindClass c.name).isSome = true)
        ∧ (∀ m ∈ members, (P.FindClass m.cls).isSome = true
            ∧ (m.critical = true → (P.member m).isSome = true))
        ∧ P.accessorsPass) := by
  rw [InitJNIFields_first P g hg]
  have hc := classLoop_ok P classes g.jfields []
  obtain ⟨hm1, hm2⟩ := memberLoop_spec P members none none
    (InitJNIFields.classLoop P classes g.jfields []).2.1
    (InitJNIFields.classLoop P classes g.jfields []).2.2 (by simp)
  rw [← hc, ← hm1]
  by_cases h1 : (InitJNIFields.classLoop P classes g.jfields []).1 = true
  · by_cases h2 : (InitJNIFields.memberLoop P members none none
        (InitJNIFields.classLoop P classes g.jfields []).2.1
        (InitJNIFields.classLoop P classes g.jfields []).2.2).1 = true
    · have hs := selectAccessors_ok P (InitJNIFields.classLoop P classes g.jfields []).2.1
      rw [← hm2 h2] at hs
      rw [← hs]
      simp only [h1, h2, Bool.true_eq_false, if_false, true_and]
      split_ifs with h3
      · simp [h3]
      · simpa using h3
    · simp [h1, h2]
  · simp [h1]

/-- The members of the table that are not critical are the four buffer accessors. -/
theorem noncritical_members : ∀ m ∈ members, m.critical = false →
    m = member.getInputBuffers ∨ m = member.getInputBuffer
      ∨ m = member.getOutputBuffers ∨ m = member.getOutputBuffer := by
  decide

theorem calls_after_first (first : InitOut) (hstate : first.globals.i_init_state ≠ -1)
    (hret : (first.globals.i_init_state == 1) = first.ret) :
    ∀ (later : List Platform), ∀ o ∈ InitJNIFields.calls later first.globals,
      o.ret = first.ret ∧ o.trace = [] ∧ o.globals = first.globals := by
  intro later
  induction later with
  | nil => intro o ho; simp [InitJNIFields.calls] at ho
  | cons P2 rest ih =>
    intro o ho
    have hne : (first.globals.i_init_state != -1) = true := by simpa using hstate
    have hcall : InitJNIFields P2 first.globals = ⟨first.ret, first.globals, []⟩ := by
      simp [InitJNIFields, hne, hret]
    unfold InitJNIFields.calls at ho
    rw [hcall] at ho
    rcases List.mem_cons.mp ho with h | h
    · subst h; exact ⟨rfl, rfl, rfl⟩
    · exact ih o h

theorem InitJNIFields_state (P : Platform) (g : Globals) (hg : g.i_init_state = -1) :
    (InitJNIFields P g).globals.i_init_state ≠ -1
    ∧ ((InitJNIFields P g).globals.i_init_state == 1) = (InitJNIFields P g).ret := by
  rw [InitJNIFields_first P g hg]
  split_ifs <;> simp

/-! ## What holds of MediaCodec_GetName -/

/-- Whatever the platform does, a name that `MediaCodec_GetName` returns is the
name of a component of the codec list that is not blacklisted, is not an
encoder, answers the capability query and lists the MIME type; when a profile
is asked for, the component declares a matching profile level, or its name
begins with "OMX.LUMEVideoDecoder", or its name is a proper beginning of that
constant. -/
theorem MediaCodec_GetName_returns_accepted (U : OmxilUtils) (P : Platform) (g : Globals)
    (psz_mime : CStr) (h264_profile : Nat) (name : CStr)
    (h : (MediaCodec_GetName U P g psz_mime h264_profile).psz_name = some name) :
    ∃ info ∈ P.registry, info.getName = name
      ∧ MediaCodec_GetName.accepted U psz_mime h264_profile info := by
  unfold MediaCodec_GetName at h
  cases henv : P.android_getEnv with
  | none => simp [henv] at h
  | some env =>
    simp only [henv] at h
    split_ifs at h with h1 h2
    exact loop_some U P psz_mime h264_profile _ _ _ _ name h

/-- A name that `MediaCodec_GetName` returns and that is no proper beginning of
"OMX.LUMEVideoDecoder" is the name of a component of the codec list that meets
the selection criteria. -/
theorem MediaCodec_GetName_sound_elsewhere (U : OmxilUtils) (P : Platform) (g : Globals)
    (psz_mime : CStr) (h264_profile : Nat) (name : CStr)
    (h : (MediaCodec_GetName U P g psz_mime h264_profile).psz_name = some name)
    (hname : ¬ MediaCodec_GetName.shortOfLUME name) :
    ∃ info ∈ P.registry, info.getName = name
      ∧ MediaCodec_GetName.satisfies U psz_mime h264_profile info := by
  obtain ⟨info, hmem, hn, hacc⟩ :=
    MediaCodec_GetName_returns_accepted U P g psz_mime h264_profile name h
  subst hn
  exact ⟨info, hmem, rfl, (accepted_iff_satisfies U psz_mime h264_profile info hname).mp hacc⟩

/-- On a codec list that holds no proper beginning of "OMX.LUMEVideoDecoder" as a
name and on which no unchecked call raises: when the environment is obtained,
the handle table is ready, the MIME string and the copy of the name can be
allocated, and some component meets the selection criteria,
`MediaCodec_GetName` returns the name of the first component, in the order of
the list, that meets them, and makes no call on any component after that
one. -/
theorem MediaCodec_GetName_first_match_elsewhere (U : OmxilUtils) (P : Platform)
    (g : Globals) (psz_mime : CStr) (h264_profile : Nat)
    (henv : P.android_getEnv.isSome = true)
    (hinit : (InitJNIFields P g).ret = true)
    (hmime : P.NewStringUTF psz_mime = true)
    (hmalloc : ∀ n, P.malloc n = true)
    (hcount : P.getCodecCount = false)
    (hquiet : ∀ c ∈ P.registry, c.quiet)
    (hnames : ∀ c ∈ P.registry, ¬ MediaCodec_GetName.shortOfLUME c.getName)
    (hex : ∃ c ∈ P.registry, MediaCodec_GetName.satisfies U psz_mime h264_profile c) :
    ∃ (k : Nat) (info : MediaCodecInfo), P.registry[k]? = some info
      ∧ MediaCodec_GetName.satisfies U psz_mime h264_profile info
      ∧ (∀ (j : Nat), j < k → ∀ c, P.registry[j]? = some c →
          ¬ MediaCodec_GetName.satisfies U psz_mime h264_profile c)
      ∧ (MediaCodec_GetName U P g psz_mime h264_profile).psz_name = some info.getName
      ∧ ∀ e ∈ (MediaCodec_GetName U P g psz_mime h264_profile).trace,
          ∀ (j : Nat), e.component = some j → j ≤ k := by
  obtain ⟨k, info, hk, hsat, hfirst⟩ :=
    exists_first_index (MediaCodec_GetName.satisfies U psz_mime h264_profile) P.registry hex
  refine ⟨k, info, hk, hsat, hfirst, ?_⟩
  obtain ⟨env, henv2⟩ := Option.isSome_iff_exists.mp henv
  have hacc : MediaCodec_GetName.accepted U psz_mime h264_profile info :=
    (accepted_iff_satisfies U psz_mime h264_profile info
      (hnames info (List.mem_iff_getElem?.mpr ⟨k, hk⟩))).mpr hsat
  have hfirst2 : ∀ j < k, ∀ c, P.registry[j]? = some c →
      ¬ MediaCodec_GetName.accepted U psz_mime h264_profile c := by
    intro j hj c hc hc2
    exact hfirst j hj c hc ((accepted_iff_satisfies U psz_mime h264_profile c
      (hnames c (List.mem_iff_getElem?.mpr ⟨j, hc⟩))).mp hc2)
  obtain ⟨h1, h2⟩ := loop_first U P psz_mime h264_profile
    P.registry 0 ((InitJNIFields P g).trace ++ [Effect.getCodecCount]) k info hquiet hk hacc
    hfirst2
  unfold MediaCodec_GetName
  simp only [henv2, hinit, hmime, hcount, Bool.not_true, Bool.false_eq_true, if_false]
  refine ⟨?_, ?_⟩
  · rw [h1]; simp [hmalloc]
  · intro e he j hj
    rcases h2 e he with h | ⟨i, hi, hcomp⟩
    · rcases List.mem_append.mp h with h | h
      · rw [InitJNIFields_trace_component P g e h] at hj
        exact absurd hj (by simp)
      · simp only [List.mem_singleton] at h
        subst h
        exact absurd hj (by simp [Effect.component])
    · rw [hcomp] at hj
      simp only [Option.some.injEq] at hj
      omega

/-- The codec list made of an encoder and two equally matching decoders, asked
for profile 66: the first of the two decoders is returned. -/
theorem MediaCodec_GetName_first_match_example :
    ∃ (k : Nat) (info : MediaCodecInfo),
      (Platform.withRegistry [MediaCodecInfo.avcEncoder, MediaCodecInfo.avcDecoder,
        MediaCodecInfo.avcDecoder2]).registry[k]? = some info
      ∧ MediaCodec_GetName.satisfies OmxilUtils.sample (ascii "video/avc") 66 info
      ∧ (∀ (j : Nat), j < k → ∀ c, (Platform.withRegistry [MediaCodecInfo.avcEncoder,
          MediaCodecInfo.avcDecoder, MediaCodecInfo.avcDecoder2]).registry[j]? = some c →
          ¬ MediaCodec_GetName.satisfies OmxilUtils.sample (ascii "video/avc") 66 c)
      ∧ (MediaCodec_GetName OmxilUtils.sample (Platform.withRegistry
          [MediaCodecInfo.avcEncoder, MediaCodecInfo.avcDecoder, MediaCodecInfo.avcDecoder2])
          Globals.atLoad (ascii "video/avc") 66).psz_name = some info.getName
      ∧ ∀ e ∈ (MediaCodec_GetName OmxilUtils.sample (Platform.withRegistry
          [MediaCodecInfo.avcEncoder, MediaCodecInfo.avcDecoder, MediaCodecInfo.avcDecoder2])
          Globals.atLoad (ascii "video/avc") 66).trace,
          ∀ (j : Nat), e.component = some j → j ≤ k :=
  MediaCodec_GetName_first_match_elsewhere OmxilUtils.sample
    (Platform.withRegistry [MediaCodecInfo.avcEncoder, MediaCodecInfo.avcDecoder,
      MediaCodecInfo.avcDecoder2])
    Globals.atLoad (ascii "video/avc") 66 (by decide) (by decide) (by decide)
    (fun _ => rfl) (by decide) (by decide) (by decide)
    ⟨MediaCodecInfo.avcDecoder, List.Mem.tail _ (List.Mem.head _), by decide⟩

/-- What a raise of an unchecked call does: on the codec list made of a decoder
whose `getSupportedTypes` raises and of a decoder that meets the selection
criteria, the exception is found by the `CHECK_EXCEPTION()` that follows
`getCapabilitiesForType` on the second decoder, which is skipped, its types
never asked for, and the result is `NULL`. -/
theorem MediaCodec_GetName_stale_exception :
    MediaCodec_GetName.satisfies OmxilUtils.sample (ascii "video/avc") 66
        MediaCodecInfo.avcDecoder
    ∧ (MediaCodec_GetName OmxilUtils.sample
        (Platform.withRegistry [MediaCodecInfo.typesRaise, MediaCodecInfo.avcDecoder])
        Globals.atLoad (ascii "video/avc") 66).psz_name = none
    ∧ Effect.getSupportedTypes 1 ∉ (MediaCodec_GetName OmxilUtils.sample
        (Platform.withRegistry [MediaCodecInfo.typesRaise, MediaCodecInfo.avcDecoder])
        Globals.atLoad (ascii "video/avc") 66).trace := by
  decide

/-- On a codec list that holds no proper beginning of "OMX.LUMEVideoDecoder" as a
name, `MediaCodec_GetName` returns `NULL` when no component meets the selection
criteria, whatever the platform does otherwise. -/
theorem MediaCodec_GetName_no_match_elsewhere (U : OmxilUtils) (P : Platform) (g : Globals)
    (psz_mime : CStr) (h264_profile : Nat)
    (hnames : ∀ c ∈ P.registry, ¬ MediaCodec_GetName.shortOfLUME c.getName)
    (hno : ∀ c ∈ P.registry, ¬ MediaCodec_GetName.satisfies U psz_mime h264_profile c) :
    (MediaCodec_GetName U P g psz_mime h264_profile).psz_name = none := by
  cases hr : (MediaCodec_GetName U P g psz_mime h264_profile).psz_name with
  | none => rfl
  | some name =>
    obtain ⟨info, hmem, _, hacc⟩ :=
      MediaCodec_GetName_returns_accepted U P g psz_mime h264_profile name hr
    exact absurd ((accepted_iff_satisfies U psz_mime h264_profile info
      (hnames info hmem)).mp hacc) (hno info hmem)

/-- Whatever the platform does, `MediaCodec_GetName` never asks an encoder for its
supported types: the encoder is rejected before. -/
theorem MediaCodec_GetName_encoder_types_unasked (U : OmxilUtils) (P : Platform)
    (g : Globals) (psz_mime : CStr) (h264_profile : Nat) (i : Nat) (info : MediaCodecInfo)
    (hi : P.registry[i]? = some info) (henc : info.isEncoder = true) :
    Effect.getSupportedTypes i ∉ (MediaCodec_GetName U P g psz_mime h264_profile).trace := by
  intro hmem
  unfold MediaCodec_GetName at hmem
  cases henv : P.android_getEnv with
  | none => simp [henv] at hmem
  | some env =>
    simp only [henv] at hmem
    have hinit : Effect.getSupportedTypes i ∉ (InitJNIFields P g).trace := by
      intro h
      have := InitJNIFields_trace_component P g _ h
      simp [Effect.component] at this
    split_ifs at hmem
    · exact hinit hmem
    · exact hinit hmem
    · rcases loop_trace U P psz_mime h264_profile P.registry 0 _ _ _ hmem with
        h | ⟨k, c, q, hk, hc⟩
      · rcases List.mem_append.mp h with h | h
        · exact hinit h
        · simp at h
      · have hcomp := body_trace_component U psz_mime h264_profile q (0 + k) c _ hc
        simp only [Effect.component, Option.some.injEq, Nat.zero_add] at hcomp
        subst hcomp
        rw [hi] at hk
        simp only [Option.some.injEq] at hk
        subst hk
        have := body_trace_types U psz_mime h264_profile q (0 + i) i info hc
        rw [henc] at this
        exact absurd this (by simp)

/-- The codec list in which only an encoder declares "video/avc", asked for
profile 66: the result is `NULL` and the types of the encoder are not asked
for. -/
theorem MediaCodec_GetName_no_match_example :
    (MediaCodec_GetName OmxilUtils.sample (Platform.withRegistry [MediaCodecInfo.avcEncoder])
        Globals.atLoad (ascii "video/avc") 66).psz_name = none
    ∧ Effect.getSupportedTypes 0 ∉ (MediaCodec_GetName OmxilUtils.sample
        (Platform.withRegistry [MediaCodecInfo.avcEncoder]) Globals.atLoad (ascii "video/avc")
        66).trace :=
  ⟨MediaCodec_GetName_no_match_elsewhere OmxilUtils.sample
      (Platform.withRegistry [MediaCodecInfo.avcEncoder]) Globals.atLoad (ascii "video/avc") 66
      (by decide) (by decide),
    MediaCodec_GetName_encoder_types_unasked OmxilUtils.sample
      (Platform.withRegistry [MediaCodecInfo.avcEncoder]) Globals.atLoad (ascii "video/avc") 66
      0 MediaCodecInfo.avcEncoder rfl rfl⟩

/-! ## The claims on MediaCodec_GetName -/

/-- C1: on the codec list made of an encoder and of the decoder "OMX.LUME", which
declares only the baseline profile, `MediaCodec_GetName` asked for "video/avc"
with profile 100 returns "OMX.LUME", and every component of that name neither
declares a profile level that converts to 100 nor bears a name that begins with
"OMX.LUMEVideoDecoder". -/
theorem MediaCodec_GetName_returns_outside_family :
    (MediaCodec_GetName OmxilUtils.sample
        (Platform.withRegistry [MediaCodecInfo.avcEncoder, MediaCodecInfo.lumeBaseline])
        Globals.atLoad (ascii "video/avc") 100).psz_name = some (ascii "OMX.LUME")
    ∧ ∀ info ∈ (Platform.withRegistry
          [MediaCodecInfo.avcEncoder, MediaCodecInfo.lumeBaseline]).registry,
        info.getName = ascii "OMX.LUME" →
          ¬ MediaCodec_GetName.declaresProfile OmxilUtils.sample (ascii "video/avc") 100 info
          ∧ ¬ MediaCodec_GetName.beginsWithLUME info.getName := by
  decide

/-- C2: on the codec list made of the decoder "OMX.LUMEVideo", which does not
meet the selection criteria for profile 100, followed by a decoder that meets
them, `MediaCodec_GetName` returns the name of the first, not the name of the
only component that meets the criteria. -/
theorem MediaCodec_GetName_returns_before_first_match :
    ¬ MediaCodec_GetName.satisfies OmxilUtils.sample (ascii "video/avc") 100
        MediaCodecInfo.lumeShort
    ∧ MediaCodec_GetName.satisfies OmxilUtils.sample (ascii "video/avc") 100
        MediaCodecInfo.avcDecoder
    ∧ (MediaCodec_GetName OmxilUtils.sample
        (Platform.withRegistry [MediaCodecInfo.lumeShort, MediaCodecInfo.avcDecoder])
        Globals.atLoad (ascii "video/avc") 100).psz_name = some MediaCodecInfo.lumeShort.getName
    ∧ MediaCodecInfo.lumeShort.getName ≠ MediaCodecInfo.avcDecoder.getName := by
  decide

/-- C3: on the codec list made of an encoder and of the decoder "OMX", which
exposes no profile, no component meets the selection criteria for "video/avc"
with profile 66, and `MediaCodec_GetName` returns the name "OMX" all the same. -/
theorem MediaCodec_GetName_match_without_criteria :
    (∀ c ∈ (Platform.withRegistry
          [MediaCodecInfo.avcEncoder, MediaCodecInfo.omxPrefix]).registry,
        ¬ MediaCodec_GetName.satisfies OmxilUtils.sample (ascii "video/avc") 66 c)
    ∧ (MediaCodec_GetName OmxilUtils.sample
        (Platform.withRegistry [MediaCodecInfo.avcEncoder, MediaCodecInfo.omxPrefix])
        Globals.atLoad (ascii "video/avc") 66).psz_name = some (ascii "OMX") := by
  decide

/-- C4: the component named "OMX.LUMEVideo", whose name does not begin with
"OMX.LUMEVideoDecoder" and which declares no profile level at all, is selected
for "video/avc" with profile 100: the test on the name compares only the
first `min(20, name_len)` bytes, so a shorter name that agrees with the
constant on its whole length passes it. -/
theorem MediaCodec_GetName_short_name_bypasses :
    ¬ MediaCodec_GetName.beginsWithLUME MediaCodecInfo.lumeShort.getName
    ∧ ¬ MediaCodec_GetName.declaresProfile OmxilUtils.sample (ascii "video/avc") 100
        MediaCodecInfo.lumeShort
    ∧ (MediaCodec_GetName OmxilUtils.sample (Platform.withRegistry [MediaCodecInfo.lumeShort])
        Globals.atLoad (ascii "video/avc") 100).psz_name = some (ascii "OMX.LUMEVideo") := by
  decide

/-! ## The claims on InitJNIFields -/

/-- C6: on a platform that has `getInputBuffers` and none of the other three
buffer accessors, `InitJNIFields` succeeds and leaves neither mode active:
`get_input_buffers` is set while `get_output_buffers`, `get_input_buffer` and
`get_output_buffer` are null. `Start` then succeeds without caching the buffer
arrays, `PutInput` still reads its input from the (null) cached array, and
`GetOutput` calls the per-index accessor, whose identifier is null. -/
theorem InitJNIFields_mixed_accessors :
    (InitJNIFields Platform.inputArrayOnly Globals.atLoad).ret = true
    ∧ (Globals.inputArrayOnly.jfields JField.get_input_buffers).isSome = true
    ∧ Globals.inputArrayOnly.jfields JField.get_output_buffers = none
    ∧ Globals.inputArrayOnly.jfields JField.get_input_buffer = none
    ∧ Globals.inputArrayOnly.jfields JField.get_output_buffer = none
    ∧ (Start Platform.inputArrayOnly Globals.inputArrayOnly mc_api.video0 (ascii "OMX.x")
        (ascii "video/avc") mc_api_args.noSurface).ret = VLC_SUCCESS
    ∧ (Start Platform.inputArrayOnly Globals.inputArrayOnly mc_api.video0 (ascii "OMX.x")
        (ascii "video/avc") mc_api_args.noSurface).api.p_sys.input_buffers = none
    ∧ Effect.GetObjectArrayElement none 0 ∈
        (PutInput Platform.inputArrayOnly Globals.inputArrayOnly
          (Start Platform.inputArrayOnly Globals.inputArrayOnly mc_api.video0 (ascii "OMX.x")
            (ascii "video/avc") mc_api_args.noSurface).api [1, 2, 3] 3 0 false 0).trace
    ∧ Effect.getOutputBuffer (some 10) 0 ∈
        (GetOutput { Platform.inputArrayOnly with dequeueOutputBuffer := ⟨false, 0⟩ }
          Globals.inputArrayOnly
          (Start Platform.inputArrayOnly Globals.inputArrayOnly mc_api.video0 (ascii "OMX.x")
            (ascii "video/avc") mc_api_args.noSurface).api
          ⟨mc_api_out_type.MC_OUT_TYPE_BUF, ⟨0, 0, none, 0⟩, ⟨0, 0, 0, 0, 0, 0, 0, 0, 0⟩,
            ⟨0, 0, 0⟩⟩ 0).trace := by
  decide

/-- C7: the first call of `InitJNIFields` succeeds exactly when every class is
found, every member marked critical is found and the test on the buffer
accessors passes; in particular it succeeds when all that is missing is one
member marked non-critical. Every later call, whatever the platform answers
by then, returns what the first call returned, makes no lookup and leaves the
process state, handle table included, as the first call left it. -/
theorem InitJNIFields_once (P : Platform) (g : Globals) (hg : g.i_init_state = -1) :
    ((InitJNIFields P g).ret = true
      ↔ ((∀ c ∈ classes, (P.FindClass c.name).isSome = true)
        ∧ (∀ m ∈ members, (P.FindClass m.cls).isSome = true
            ∧ (m.critical = true → (P.member m).isSome = true))
        ∧ P.accessorsPass))
    ∧ (∀ m0 ∈ members, m0.critical = false →
        (∀ c ∈ classes, (P.FindClass c.name).isSome = true) →
        (∀ m ∈ members, (P.FindClass m.cls).isSome = true) →
        (∀ m ∈ members, m ≠ m0 → (P.member m).isSome = true) →
        (InitJNIFields P g).ret = true)
    ∧ (∀ (later : List Platform), ∀ o ∈ InitJNIFields.calls later (InitJNIFields P g).globals,
        o.ret = (InitJNIFields P g).ret ∧ o.trace = []
          ∧ o.globals = (InitJNIFields P g).globals) := by
  refine ⟨InitJNIFields_ret_iff P g hg, ?_, ?_⟩
  · intro m0 hm0 hcrit hclasses hcls hothers
    rw [InitJNIFields_ret_iff P g hg]
    refine ⟨hclasses, ?_, ?_⟩
    · intro m hm
      refine ⟨hcls m hm, fun hc => hothers m hm ?_⟩
      intro heq
      rw [heq, hcrit] at hc
      exact absurd hc (by simp)
    · have hin : member.getInputBuffers ∈ members := by decide
      have hout : member.getOutputBuffers ∈ members := by decide
      unfold Platform.accessorsPass
      rcases noncritical_members m0 hm0 hcrit with h | h | h | h
      · exact Or.inr (Or.inl (hothers _ hout (by rw [h]; decide)))
      · exact Or.inr (Or.inl (hothers _ hout (by rw [h]; decide)))
      · exact Or.inr (Or.inr (hothers _ hin (by rw [h]; decide)))
      · exact Or.inr (Or.inl (hothers _ hout (by rw [h]; decide)))
  · obtain ⟨h1, h2⟩ := InitJNIFields_state P g hg
    exact calls_after_first (InitJNIFields P g) h1 h2

/-- C7, on the platform without the per-index accessors, from the state of a
process at load time. -/
theorem InitJNIFields_once_witness :
    Globals.atLoad.i_init_state = -1
    ∧ (InitJNIFields Platform.kitkat Globals.atLoad).ret = true
    ∧ (∀ (later : List Platform),
        ∀ o ∈ InitJNIFields.calls later (InitJNIFields Platform.kitkat Globals.atLoad).globals,
          o.ret = (InitJNIFields Platform.kitkat Globals.atLoad).ret ∧ o.trace = []
            ∧ o.globals = (InitJNIFields Platform.kitkat Globals.atLoad).globals) :=
  ⟨rfl, by decide, (InitJNIFields_once Platform.kitkat Globals.atLoad rfl).2.2⟩

/-! ## Start -/

theorem VLC_EGENERIC_ne_SUCCESS : VLC_EGENERIC ≠ VLC_SUCCESS := by decide

theorem Start_error_ret (P : Platform) (pending : Bool) (api : mc_api) (tr : List Effect) :
    (Start.error P pending api tr).ret = VLC_EGENERIC := rfl

theorem surfaces_append (a b : List Effect) :
    Effect.surfaces (a ++ b) = Effect.surfaces a ++ Effect.surfaces b := by
  simp [Effect.surfaces, List.filterMap_append]

/-- A successful `Start.run` records the direct-rendering mode it was given and
configures nothing. -/
theorem Start_run_success (P : Platform) (g : Globals) (api : mc_api) (b : Bool)
    (pending : Bool) (tr : List Effect)
    (h : (Start.run P g api b pending tr).ret = VLC_SUCCESS) :
    (Start.run P g api b pending tr).api.b_direct_rendering = b
    ∧ Effect.surfaces (Start.run P g api b pending tr).trace = Effect.surfaces tr := by
  unfold Start.run at h ⊢
  simp only at h ⊢
  split_ifs at h ⊢ <;>
    first
      | exact absurd h VLC_EGENERIC_ne_SUCCESS
      | simp [surfaces_append, Effect.surfaces]

theorem Start_configure_success (P : Platform) (g : Globals) (api : mc_api) (b : Bool)
    (jformat jsurface : Option Handle) (pending : Bool) (tr : List Effect)
    (h : (Start.configure P g api b jformat jsurface pending tr).ret = VLC_SUCCESS) :
    (Start.configure P g api b jformat jsurface pending tr).api.b_direct_rendering = b
    ∧ Effect.surfaces (Start.configure P g api b jformat jsurface pending tr).trace
        = Effect.surfaces tr ++ [if b then jsurface else none] := by
  unfold Start.configure at h ⊢
  cases b with
  | true =>
    simp only [if_true] at h ⊢
    split_ifs at h ⊢ with h1
    · exact absurd h VLC_EGENERIC_ne_SUCCESS
    · obtain ⟨h2, h3⟩ := Start_run_success P g api true false _ h
      exact ⟨h2, by rw [h3]; simp [surfaces_append, Effect.surfaces]⟩
  | false =>
    simp only [Bool.false_eq_true, if_false] at h ⊢
    split_ifs at h ⊢ with h1
    · exact absurd h VLC_EGENERIC_ne_SUCCESS
    · obtain ⟨h2, h3⟩ := Start_run_success P g api false false _ h
      exact ⟨h2, by rw [h3]; simp [surfaces_append, Effect.surfaces]⟩

/-- C5: after a successful `Start`, `api->b_direct_rendering` is true exactly
when the session is video, a surface was obtained (`p_awh` is not null and
`AWindowHandler_getSurface` returned a surface) and either `i_angle` is 0 or
`jfields.get_input_buffer` is set; and `MediaCodec.configure` was called once,
with that surface in this case and with a null surface otherwise. -/
theorem Start_direct_rendering (P : Platform) (g : Globals) (api : mc_api)
    (psz_name psz_mime : CStr) (p_args : mc_api_args)
    (h : (Start P g api psz_name psz_mime p_args).ret = VLC_SUCCESS) :
    ((Start P g api psz_name psz_mime p_args).api.b_direct_rendering = true
      ↔ (api.b_video = true
        ∧ (∃ awh surface, p_args.video.p_awh = some awh
            ∧ P.AWindowHandler_getSurface awh = some surface)
        ∧ (p_args.video.i_angle = 0 ∨ (g.jfields JField.get_input_buffer).isSome = true)))
    ∧ Effect.surfaces (Start P g api psz_name psz_mime p_args).trace
        = [if (Start P g api psz_name psz_mime p_args).api.b_direct_rendering
            then Start.jsurface P p_args else none] := by
  unfold Start at h ⊢
  cases henv : P.android_getEnv with
  | none =>
    simp only [henv] at h
    exact absurd h VLC_EGENERIC_ne_SUCCESS
  | some env =>
    simp only [henv] at h ⊢
    by_cases hstr : ((if P.NewStringUTF psz_mime = true then some psz_mime else none : jstring).isNone
        || (if P.NewStringUTF psz_name = true then some psz_name else none : jstring).isNone) = true
    · rw [if_pos hstr] at h
      exact absurd h VLC_EGENERIC_ne_SUCCESS
    · rw [if_neg hstr] at h ⊢
      by_cases hcreate : P.createByCodecName.raised = true
      · rw [if_pos hcreate] at h
        exact absurd h VLC_EGENERIC_ne_SUCCESS
      · rw [if_neg hcreate] at h ⊢
        cases hv : api.b_video with
        | false =>
          simp only [hv, Bool.false_eq_true, if_false] at h ⊢
          obtain ⟨hd, hs⟩ := Start_configure_success _ _ _ _ _ _ _ _ h
          rw [hd, hs]
          simp [Effect.surfaces]
        | true =>
          simp only [hv, if_true] at h ⊢
          obtain ⟨hd, hs⟩ := Start_configure_success _ _ _ _ _ _ _ _ h
          rw [hd, hs]
          cases hawh : p_args.video.p_awh with
          | none => simp [Effect.surfaces, Start.jsurface, hawh]
          | some awh =>
            cases hsurf : P.AWindowHandler_getSurface awh with
            | none => simp [Effect.surfaces, Start.jsurface, hawh, hsurf]
            | some surface =>
              by_cases hangle : p_args.video.i_angle = 0
              · simp [Effect.surfaces, Start.jsurface, hawh, hsurf, hangle]
              · cases hgib : g.jfields JField.get_input_buffer with
                | none => simp [Effect.surfaces, Start.jsurface, hawh, hsurf, hangle, hgib]
                | some id => simp [Effect.surfaces, Start.jsurface, hawh, hsurf, hangle, hgib]

/-- C5, for a rotated video with a surface: rendering is direct where the
per-index accessor exists. -/
theorem Start_direct_rendering_witness :
    (Start Platform.lollipop Globals.lollipop mc_api.video0 (ascii "OMX.x") (ascii "video/avc")
        mc_api_args.rotated).ret = VLC_SUCCESS
    ∧ (Start Platform.lollipop Globals.lollipop mc_api.video0 (ascii "OMX.x")
        (ascii "video/avc") mc_api_args.rotated).api.b_direct_rendering = true
    ∧ Effect.surfaces (Start Platform.lollipop Globals.lollipop mc_api.video0 (ascii "OMX.x")
        (ascii "video/avc") mc_api_args.rotated).trace
        = [if (Start Platform.lollipop Globals.lollipop mc_api.video0 (ascii "OMX.x")
            (ascii "video/avc") mc_api_args.rotated).api.b_direct_rendering
            then Start.jsurface Platform.lollipop mc_api_args.rotated else none] :=
  ⟨by decide, by decide,
    (Start_direct_rendering Platform.lollipop Globals.lollipop mc_api.video0 (ascii "OMX.x")
      (ascii "video/avc") mc_api_args.rotated (by decide)).2⟩

/-! ## PutInput -/

/-- C8: when the environment is obtained and `dequeueInputBuffer` returns a
negative index without raising, `PutInput` returns 0, which is not the error
status, makes no call besides that `dequeueInputBuffer` (so fetches no buffer,
copies nothing and queues nothing) and leaves the session as it was. -/
theorem PutInput_not_ready (P : Platform) (g : Globals) (api : mc_api) (p_buf : List Nat)
    (i_size : Nat) (i_ts : Int) (b_config : Bool) (i_timeout : Int)
    (henv : P.android_getEnv.isSome = true)
    (hraise : P.dequeueInputBuffer.raised = false)
    (hneg : P.dequeueInputBuffer.val < 0) :
    (PutInput P g api p_buf i_size i_ts b_config i_timeout).ret = 0
    ∧ (PutInput P g api p_buf i_size i_ts b_config i_timeout).ret ≠ VLC_EGENERIC
    ∧ (PutInput P g api p_buf i_size i_ts b_config i_timeout).trace
        = [Effect.dequeueInputBuffer api.p_sys.codec i_timeout]
    ∧ (PutInput P g api p_buf i_size i_ts b_config i_timeout).api = api := by
  obtain ⟨env, henv2⟩ := Option.isSome_iff_exists.mp henv
  have h : PutInput P g api p_buf i_size i_ts b_config i_timeout
      = ⟨0, api, false, [Effect.dequeueInputBuffer api.p_sys.codec i_timeout]⟩ := by
    unfold PutInput
    simp [henv2, hraise, hneg]
  rw [h]
  have hne : (0 : Int) ≠ VLC_EGENERIC := by decide
  exact ⟨rfl, hne, rfl, rfl⟩

/-- C8, when the platform answers `INFO_TRY_AGAIN_LATER`. -/
theorem PutInput_not_ready_witness :
    Platform.noInputSlot.android_getEnv.isSome = true
    ∧ Platform.noInputSlot.dequeueInputBuffer.raised = false
    ∧ Platform.noInputSlot.dequeueInputBuffer.val < 0
    ∧ (PutInput Platform.noInputSlot Globals.lollipop mc_api.started [1, 2, 3, 4] 4 40 false
        1000).ret = 0 :=
  ⟨by decide, by decide, by decide,
    (PutInput_not_ready Platform.noInputSlot Globals.lollipop mc_api.started [1, 2, 3, 4] 4 40
      false 1000 (by decide) (by decide) (by decide)).1⟩

/-- C9: when a slot is dequeued, the fetch of its buffer does not raise and the
buffer has a capacity `c ≥ 0`, `PutInput` fetches that buffer, asks for its
capacity and address, copies the first `min(c, i_size)` bytes of `p_buf` to
that address and calls `queueInputBuffer` with the index of the slot,
offset 0, size `min(c, i_size)`, the timestamp `i_ts` and the flags
`BUFFER_FLAG_CODEC_CONFIG` when `b_config` holds and 0 otherwise, and makes no
other call; it returns 1 when that call does not raise, also when the input
was cut to the capacity. -/
theorem PutInput_queues (P : Platform) (g : Globals) (api : mc_api) (p_buf : List Nat)
    (i_size : Nat) (i_ts : Int) (b_config : Bool) (i_timeout : Int)
    (henv : P.android_getEnv.isSome = true)
    (hraise : P.dequeueInputBuffer.raised = false)
    (hidx : 0 ≤ P.dequeueInputBuffer.val)
    (hfetch : (PutInput.slot P g api).raised = false)
    (hcap : 0 ≤ PutInput.slotCapacity P g api)
    (hbuf : i_size ≤ p_buf.length) :
    (PutInput P g api p_buf i_size i_ts b_config i_timeout).trace
        = [Effect.dequeueInputBuffer api.p_sys.codec i_timeout,
            PutInput.slotFetch P g api,
            Effect.GetDirectBufferCapacity (PutInput.slot P g api).val,
            Effect.GetDirectBufferAddress (PutInput.slot P g api).val,
            Effect.memcpy (PutInput.slotAddress P g api)
              (p_buf.take (min (PutInput.slotCapacity P g api) (i_size : Int)).toNat)
              (min (PutInput.slotCapacity P g api) (i_size : Int)),
            Effect.queueInputBuffer api.p_sys.codec P.dequeueInputBuffer.val 0
              (min (PutInput.slotCapacity P g api) (i_size : Int)) i_ts
              (if b_config then BUFFER_FLAG_CODEC_CONFIG else 0)]
    ∧ ((p_buf.take (min (PutInput.slotCapacity P g api) (i_size : Int)).toNat).length : Int)
        = min (PutInput.slotCapacity P g api) (i_size : Int)
    ∧ (P.queueInputBuffer = false →
        (PutInput P g api p_buf i_size i_ts b_config i_timeout).ret = 1)
    ∧ (PutInput P g api p_buf i_size i_ts b_config i_timeout).api = api := by
  obtain ⟨env, henv2⟩ := Option.isSome_iff_exists.mp henv
  have hslot : PutInput.j_mc_buf P g api P.dequeueInputBuffer.val = PutInput.slot P g api := by
    unfold PutInput.j_mc_buf PutInput.slot
    cases h : g.jfields JField.get_input_buffers <;> simp
  have hcall : PutInput.fetch g api P.dequeueInputBuffer.val = PutInput.slotFetch P g api := by
    unfold PutInput.fetch PutInput.slotFetch
    cases h : g.jfields JField.get_input_buffers <;> simp
  have hnot : ¬ P.dequeueInputBuffer.val < 0 := by omega
  have hcap2 : ¬ P.GetDirectBufferCapacity (PutInput.slot P g api).val < 0 := by
    unfold PutInput.slotCapacity at hcap; omega
  have hmin : (if (P.GetDirectBufferCapacity (PutInput.slot P g api).val).toNat > i_size
      then (i_size : Int)
      else P.GetDirectBufferCapacity (PutInput.slot P g api).val)
      = min (PutInput.slotCapacity P g api) (i_size : Int) := by
    unfold PutInput.slotCapacity at hcap ⊢
    split_ifs with h1
    · rw [min_eq_right]; omega
    · rw [min_eq_left]; omega
  refine ⟨?_, ?_, ?_, ?_⟩
  · unfold PutInput
    simp only [henv2, hraise, hnot, hslot, hcall, hfetch, hcap2, hmin, Bool.false_eq_true,
      if_false]
    unfold PutInput.slotAddress
    split_ifs <;> simp
  · have h0 : 0 ≤ min (PutInput.slotCapacity P g api) (i_size : Int) := le_min hcap (by omega)
    have h1 : min (PutInput.slotCapacity P g api) (i_size : Int) ≤ (i_size : Int) :=
      min_le_right _ _
    rw [List.length_take]
    omega
  · intro hq
    unfold PutInput
    simp [henv2, hraise, hnot, hslot, hcall, hfetch, hcap2, hq]
  · unfold PutInput
    simp only [henv2, hraise, hnot, hslot, hcall, hfetch, hcap2, Bool.false_eq_true, if_false]
    split_ifs <;> rfl

/-- C9, for an input of 10 bytes and a slot whose buffer, handle 18 at address
4096, has capacity 8: the first 8 bytes are copied to 4096 and queued, and the
result is 1. -/
theorem PutInput_queues_witness :
    (PutInput Platform.lollipop Globals.lollipop mc_api.started
        [1, 2, 3, 4, 5, 6, 7, 8, 9, 10] 10 40 true 1000).ret = 1
    ∧ (PutInput Platform.lollipop Globals.lollipop mc_api.started
        [1, 2, 3, 4, 5, 6, 7, 8, 9, 10] 10 40 true 1000).trace
      = [Effect.dequeueInputBuffer (some 10) 1000, Effect.getInputBuffer (some 10) 0,
          Effect.GetDirectBufferCapacity (some 18), Effect.GetDirectBufferAddress (some 18),
          Effect.memcpy 4096 [1, 2, 3, 4, 5, 6, 7, 8] 8,
          Effect.queueInputBuffer (some 10) 0 0 8 40 2] :=
  ⟨(PutInput_queues Platform.lollipop Globals.lollipop mc_api.started
      [1, 2, 3, 4, 5, 6, 7, 8, 9, 10] 10 40 true 1000 (by decide) (by decide) (by decide)
      (by decide) (by decide) (by decide)).2.2.1 (by decide),
    by decide⟩

/-- C10: when the buffer of the dequeued slot reports a negative capacity,
`PutInput` returns `VLC_EGENERIC`, having copied nothing and queued nothing,
and leaves the session as it was. -/
theorem PutInput_negative_capacity (P : Platform) (g : Globals) (api : mc_api)
    (p_buf : List Nat) (i_size : Nat) (i_ts : Int) (b_config : Bool) (i_timeout : Int)
    (henv : P.android_getEnv.isSome = true)
    (hraise : P.dequeueInputBuffer.raised = false)
    (hidx : 0 ≤ P.dequeueInputBuffer.val)
    (hfetch : (PutInput.j_mc_buf P g api P.dequeueInputBuffer.val).raised = false)
    (hcap : PutInput.capacity P g api < 0) :
    (PutInput P g api p_buf i_size i_ts b_config i_timeout).ret = VLC_EGENERIC
    ∧ (∀ e ∈ (PutInput P g api p_buf i_size i_ts b_config i_timeout).trace, e.feeds = false)
    ∧ (PutInput P g api p_buf i_size i_ts b_config i_timeout).api = api := by
  obtain ⟨env, henv2⟩ := Option.isSome_iff_exists.mp henv
  have hnot : ¬ P.dequeueInputBuffer.val < 0 := by omega
  unfold PutInput.capacity at hcap
  have h : PutInput P g api p_buf i_size i_ts b_config i_timeout
      = ⟨VLC_EGENERIC, api, false,
          [Effect.dequeueInputBuffer api.p_sys.codec i_timeout,
            PutInput.fetch g api P.dequeueInputBuffer.val,
            Effect.GetDirectBufferCapacity
              (PutInput.j_mc_buf P g api P.dequeueInputBuffer.val).val,
            Effect.GetDirectBufferAddress
              (PutInput.j_mc_buf P g api P.dequeueInputBuffer.val).val]⟩ := by
    unfold PutInput
    simp [henv2, hraise, hnot, hfetch, hcap]
  rw [h]
  refine ⟨rfl, ?_, rfl⟩
  intro e he
  simp only [List.mem_cons, List.mem_singleton, List.not_mem_nil, or_false] at he
  rcases he with h | h | h | h
  · subst h; rfl
  · subst h; unfold PutInput.fetch; split_ifs <;> rfl
  · subst h; rfl
  · subst h; rfl

/-- C10, when the platform reports the capacity -1. -/
theorem PutInput_negative_capacity_witness :
    PutInput.capacity Platform.badCapacity Globals.lollipop mc_api.started < 0
    ∧ (PutInput Platform.badCapacity Globals.lollipop mc_api.started [1, 2, 3, 4] 4 40 false
        1000).ret = VLC_EGENERIC :=
  ⟨by decide,
    (PutInput_negative_capacity Platform.badCapacity Globals.lollipop mc_api.started
      [1, 2, 3, 4] 4 40 false 1000 (by decide) (by decide) (by decide) (by decide)
      (by decide)).1⟩

/-! ## GetOutput -/

/-- C11 as stated fails: in per-index mode and outside direct rendering, when
`dequeueOutputBuffer` returns index 3 without raising and `getOutputBuffer`
raises, `GetOutput` returns `VLC_EGENERIC`, not 1. -/
theorem GetOutput_buffer_fetch_raises :
    Platform.outputBufferRaises.dequeueOutputBuffer.raised = false
    ∧ 0 ≤ Platform.outputBufferRaises.dequeueOutputBuffer.val
    ∧ (GetOutput Platform.outputBufferRaises Globals.lollipop mc_api.started mc_api_out.zero
        1000).ret = VLC_EGENERIC
    ∧ (GetOutput Platform.outputBufferRaises Globals.lollipop mc_api.started mc_api_out.zero
        1000).ret ≠ 1 := by
  decide

/-- C11, amended: when `dequeueOutputBuffer` returns an index `i ≥ 0` without
raising, `GetOutput` sets the type to `MC_OUT_TYPE_BUF`, `i_index` to `i` and
`i_ts` to the field `presentationTimeUs`. In direct rendering it returns 1 with
`p_ptr` null and `i_size` 0. Otherwise it returns 1 with `p_ptr` the address of
the output buffer plus the field `offset` and `i_size` the field `size`, unless
the fetch of the buffer raises, which only `getOutputBuffer` can: then it
returns `VLC_EGENERIC`. -/
theorem GetOutput_buffer (P : Platform) (g : Globals) (api : mc_api) (p_out : mc_api_out)
    (i_timeout : Int)
    (henv : P.android_getEnv.isSome = true)
    (hraise : P.dequeueOutputBuffer.raised = false)
    (hidx : 0 ≤ P.dequeueOutputBuffer.val) :
    (GetOutput P g api p_out i_timeout).p_out.type = mc_api_out_type.MC_OUT_TYPE_BUF
    ∧ (GetOutput P g api p_out i_timeout).p_out.buf.i_index = P.dequeueOutputBuffer.val
    ∧ (GetOutput P g api p_out i_timeout).p_out.buf.i_ts = P.pts_field
    ∧ (api.b_direct_rendering = true →
        (GetOutput P g api p_out i_timeout).ret = 1
        ∧ (GetOutput P g api p_out i_timeout).p_out.buf.p_ptr = none
        ∧ (GetOutput P g api p_out i_timeout).p_out.buf.i_size = 0)
    ∧ (api.b_direct_rendering = false → (GetOutput.buf P g api).raised = false →
        (GetOutput P g api p_out i_timeout).ret = 1
        ∧ (GetOutput P g api p_out i_timeout).p_out.buf.p_ptr
            = some (P.GetDirectBufferAddress (GetOutput.buf P g api).val + P.offset_field)
        ∧ (GetOutput P g api p_out i_timeout).p_out.buf.i_size = P.size_field)
    ∧ (api.b_direct_rendering = false → (GetOutput.buf P g api).raised = true →
        (GetOutput P g api p_out i_timeout).ret = VLC_EGENERIC) := by
  obtain ⟨env, henv2⟩ := Option.isSome_iff_exists.mp henv
  have hge : P.dequeueOutputBuffer.val ≥ 0 := hidx
  cases hd : api.b_direct_rendering with
  | true =>
    unfold GetOutput
    simp [henv2, hraise, hge, hd]
  | false =>
    cases hm : (g.jfields JField.get_output_buffers).isSome with
    | true =>
      unfold GetOutput GetOutput.buf
      simp [henv2, hraise, hge, hd, hm]
    | false =>
      cases hf : (P.getOutputBuffer P.dequeueOutputBuffer.val).raised with
      | true =>
        unfold GetOutput GetOutput.buf
        simp [henv2, hraise, hge, hd, hm, hf]
      | false =>
        unfold GetOutput GetOutput.buf
        simp [henv2, hraise, hge, hd, hm, hf]

/-- C11, amended, when output buffer 3 is ready on a session that does not
render directly. -/
theorem GetOutput_buffer_witness :
    (GetOutput Platform.outputReady Globals.lollipop mc_api.started mc_api_out.zero 1000).ret = 1
    ∧ (GetOutput Platform.outputReady Globals.lollipop mc_api.started mc_api_out.zero
        1000).p_out.buf = ⟨3, 40000, some (4096 + 16), 1000⟩ :=
  have h := GetOutput_buffer Platform.outputReady Globals.lollipop mc_api.started
    mc_api_out.zero 1000 (by decide) (by decide) (by decide)
  ⟨(h.2.2.2.2.1 (by decide) (by decide)).1, by decide⟩

/-- The value `get_integer` returns when it is entered with no exception pending. -/
theorem get_integer_value (P : Platform) (obj : Option Handle) (psz_name : CStr) :
    (get_integer P false obj psz_name).1 = P.formatValue psz_name := by
  unfold get_integer Platform.formatValue
  cases hs : P.NewStringUTF psz_name <;> cases hr : (P.getInteger psz_name).raised <;> simp [hs, hr]

/-- The only call `get_integer` makes is `getInteger` with its key. -/
theorem get_integer_keys (P : Platform) (obj : Option Handle) (psz_name : CStr) :
    ∀ k ∈ Effect.keys (get_integer P false obj psz_name).2, k = some psz_name := by
  unfold get_integer Effect.keys
  cases hs : P.NewStringUTF psz_name <;> cases hr : (P.getInteger psz_name).raised <;> simp [hs, hr]

theorem keys_append (a b : List Effect) :
    Effect.keys (a ++ b) = Effect.keys a ++ Effect.keys b := by
  simp [Effect.keys, List.filterMap_append]

/-- What `GetOutput` does on a format change when `toString` does not raise
either: when `dequeueOutputBuffer` returns `INFO_OUTPUT_FORMAT_CHANGED` and
neither `getOutputFormat` nor `toString` raises, `GetOutput` returns 1 with the
type `MC_OUT_TYPE_CONF`. For video it sets the nine video fields from the keys
width, height, stride, slice-height, color-format, crop-left, crop-top,
crop-right and crop-bottom, reads no other key and leaves the audio fields as
they were; for audio it sets the three audio fields from channel-count,
channel-mask and sample-rate, reads no other key and leaves the video fields as
they were. A key whose lookup raises gives 0, a key that is found gives its
value. -/
theorem GetOutput_format_values (P : Platform) (g : Globals) (api : mc_api)
    (p_out : mc_api_out) (i_timeout : Int)
    (henv : P.android_getEnv.isSome = true)
    (hraise : P.dequeueOutputBuffer.raised = false)
    (hval : P.dequeueOutputBuffer.val = INFO_OUTPUT_FORMAT_CHANGED)
    (hformat : P.getOutputFormat.raised = false)
    (htostring : P.tostring = false) :
    (GetOutput P g api p_out i_timeout).ret = 1
    ∧ (GetOutput P g api p_out i_timeout).p_out.type = mc_api_out_type.MC_OUT_TYPE_CONF
    ∧ (api.b_video = true →
        (GetOutput P g api p_out i_timeout).p_out.video
          = ⟨P.formatValue (ascii "width"), P.formatValue (ascii "height"),
              P.formatValue (ascii "stride"), P.formatValue (ascii "slice-height"),
              P.formatValue (ascii "color-format"), P.formatValue (ascii "crop-left"),
              P.formatValue (ascii "crop-top"), P.formatValue (ascii "crop-right"),
              P.formatValue (ascii "crop-bottom")⟩
        ∧ (GetOutput P g api p_out i_timeout).p_out.audio = p_out.audio
        ∧ ∀ k ∈ Effect.keys (GetOutput P g api p_out i_timeout).trace,
            k ∈ GetOutput.videoKeys.map some)
    ∧ (api.b_video = false →
        (GetOutput P g api p_out i_timeout).p_out.audio
          = ⟨P.formatValue (ascii "channel-count"), P.formatValue (ascii "channel-mask"),
              P.formatValue (ascii "sample-rate")⟩
        ∧ (GetOutput P g api p_out i_timeout).p_out.video = p_out.video
        ∧ ∀ k ∈ Effect.keys (GetOutput P g api p_out i_timeout).trace,
            k ∈ GetOutput.audioKeys.map some)
    ∧ (∀ key, (P.getInteger key).raised = true → P.formatValue key = 0)
    ∧ (∀ key, P.NewStringUTF key = true → (P.getInteger key).raised = false →
        P.formatValue key = (P.getInteger key).val) := by
  obtain ⟨env, henv2⟩ := Option.isSome_iff_exists.mp henv
  have hnot : ¬ INFO_OUTPUT_FORMAT_CHANGED ≥ 0 := by decide
  refine ⟨?_, ?_, ?_, ?_, ?_, ?_⟩
  · unfold GetOutput
    simp only [henv2, hraise, hnot, hval, hformat, htostring, Bool.false_eq_true, if_false,
      if_true]
    split_ifs <;> rfl
  · unfold GetOutput
    simp only [henv2, hraise, hnot, hval, hformat, htostring, Bool.false_eq_true, if_false,
      if_true]
    split_ifs <;> rfl
  · intro hv
    unfold GetOutput
    simp only [henv2, hraise, hnot, hval, hformat, htostring, hv, Bool.false_eq_true, if_false,
      if_true, get_integer_value]
    refine ⟨by trivial, by trivial, ?_⟩
    intro k hk
    simp only [keys_append, List.mem_append] at hk
    have hin : ∀ key ∈ GetOutput.videoKeys, some key ∈ GetOutput.videoKeys.map some :=
      fun key hkey => List.mem_map_of_mem _ hkey
    rcases hk with ((((((((hk | hk) | hk) | hk) | hk) | hk) | hk) | hk) | hk) | hk
    · simp [Effect.keys] at hk
    all_goals
      rw [get_integer_keys P _ _ k hk]
      exact hin _ (by decide)
  · intro hv
    unfold GetOutput
    simp only [henv2, hraise, hnot, hval, hformat, htostring, hv, Bool.false_eq_true, if_false,
      if_true, get_integer_value]
    refine ⟨by trivial, by trivial, ?_⟩
    intro k hk
    simp only [keys_append, List.mem_append] at hk
    have hin : ∀ key ∈ GetOutput.audioKeys, some key ∈ GetOutput.audioKeys.map some :=
      fun key hkey => List.mem_map_of_mem _ hkey
    rcases hk with ((hk | hk) | hk) | hk
    · simp [Effect.keys] at hk
    all_goals
      rw [get_integer_keys P _ _ k hk]
      exact hin _ (by decide)
  · intro key hr
    simp [Platform.formatValue, hr]
  · intro key hs hr
    simp [Platform.formatValue, hs, hr]

/-- C12: for the video session on which `dequeueOutputBuffer` returns
`INFO_OUTPUT_FORMAT_CHANGED`, `getOutputFormat` does not raise, the format
holds the width 1280 and the height 720 and looking up "width" does not raise,
but `toString` raises, `GetOutput` returns 1 with the type `MC_OUT_TYPE_CONF`
and the height 720, yet the width 0, and it never looks up the key "width". -/
theorem GetOutput_format_tostring_raises :
    Platform.formatStringRaises.dequeueOutputBuffer = ⟨false, INFO_OUTPUT_FORMAT_CHANGED⟩
    ∧ Platform.formatStringRaises.getOutputFormat.raised = false
    ∧ Platform.formatStringRaises.NewStringUTF (ascii "width") = true
    ∧ Platform.formatStringRaises.getInteger (ascii "width") = ⟨false, 1280⟩
    ∧ (GetOutput Platform.formatStringRaises Globals.lollipop mc_api.started mc_api_out.zero
        1000).ret = 1
    ∧ (GetOutput Platform.formatStringRaises Globals.lollipop mc_api.started mc_api_out.zero
        1000).p_out.type = mc_api_out_type.MC_OUT_TYPE_CONF
    ∧ (GetOutput Platform.formatStringRaises Globals.lollipop mc_api.started mc_api_out.zero
        1000).p_out.video = ⟨0, 720, 0, 0, 0, 0, 0, 0, 0⟩
    ∧ some (ascii "width") ∉ Effect.keys (GetOutput Platform.formatStringRaises
        Globals.lollipop mc_api.started mc_api_out.zero 1000).trace := by
  decide

/-- C13: when `dequeueOutputBuffer` returns `INFO_OUTPUT_BUFFERS_CHANGED`,
`*p_out` is left as it was. In per-index mode (`jfields.get_output_buffers`
null) `GetOutput` returns 0, makes no further call and leaves the session as it
was. In array-cached mode it deletes the cached output array and fetches the
array again: when the fetch does not raise the cached handle is the fetched one
and the result is 0; when it raises the cached handle is null and the result is
`VLC_EGENERIC`. -/
theorem GetOutput_buffers_changed (P : Platform) (g : Globals) (api : mc_api)
    (p_out : mc_api_out) (i_timeout : Int)
    (henv : P.android_getEnv.isSome = true)
    (hraise : P.dequeueOutputBuffer.raised = false)
    (hval : P.dequeueOutputBuffer.val = INFO_OUTPUT_BUFFERS_CHANGED) :
    (GetOutput P g api p_out i_timeout).p_out = p_out
    ∧ (g.jfields JField.get_output_buffers = none →
        (GetOutput P g api p_out i_timeout).ret = 0
        ∧ (GetOutput P g api p_out i_timeout).api = api
        ∧ (GetOutput P g api p_out i_timeout).trace
            = [Effect.dequeueOutputBuffer api.p_sys.codec api.p_sys.buffer_info i_timeout])
    ∧ ((g.jfields JField.get_output_buffers).isSome = true →
        (GetOutput P g api p_out i_timeout).trace
            = [Effect.dequeueOutputBuffer api.p_sys.codec api.p_sys.buffer_info i_timeout,
                Effect.DeleteGlobalRef api.p_sys.output_buffers,
                Effect.getOutputBuffers api.p_sys.codec]
        ∧ (P.getOutputBuffers.raised = false →
            (GetOutput P g api p_out i_timeout).ret = 0
            ∧ (GetOutput P g api p_out i_timeout).api
                = { api with p_sys := { api.p_sys with
                      output_buffers := P.getOutputBuffers.val } })
        ∧ (P.getOutputBuffers.raised = true →
            (GetOutput P g api p_out i_timeout).ret = VLC_EGENERIC
            ∧ (GetOutput P g api p_out i_timeout).api
                = { api with p_sys := { api.p_sys with output_buffers := none } })) := by
  obtain ⟨env, henv2⟩ := Option.isSome_iff_exists.mp henv
  have hnot : ¬ 0 ≤ INFO_OUTPUT_BUFFERS_CHANGED := by decide
  have hne : ¬ INFO_OUTPUT_BUFFERS_CHANGED = INFO_OUTPUT_FORMAT_CHANGED := by decide
  cases hm : g.jfields JField.get_output_buffers with
  | none =>
    unfold GetOutput
    simp [henv2, hraise, hnot, hne, hval, hm]
  | some id =>
    cases hr : P.getOutputBuffers.raised with
    | true =>
      unfold GetOutput
      simp [henv2, hraise, hnot, hne, hval, hm, hr]
    | false =>
      unfold GetOutput
      simp [henv2, hraise, hnot, hne, hval, hm, hr]

/-- C13, in array-cached mode: the cached output array 15 is replaced by the
fetched array 25. -/
theorem GetOutput_buffers_changed_witness :
    (GetOutput Platform.buffersChanged Globals.kitkat mc_api.startedArrays mc_api_out.zero
        1000).ret = 0
    ∧ (GetOutput Platform.buffersChanged Globals.kitkat mc_api.startedArrays mc_api_out.zero
        1000).api.p_sys.output_buffers = some 25
    ∧ (GetOutput Platform.buffersChanged Globals.kitkat mc_api.startedArrays mc_api_out.zero
        1000).trace
        = [Effect.dequeueOutputBuffer (some 10) (some 16) 1000,
            Effect.DeleteGlobalRef (some 15), Effect.getOutputBuffers (some 10)] :=
  have h := GetOutput_buffers_changed Platform.buffersChanged Globals.kitkat
    mc_api.startedArrays mc_api_out.zero 1000 (by decide) (by decide) (by decide)
  ⟨((h.2.2 (by decide)).2.1 (by decide)).1, by decide, (h.2.2 (by decide)).1⟩

/-! ## Stop -/

/-- What `Stop` does once it has the environment: the status, the session it
leaves and the calls of `stop` and `release` it makes. -/
theorem Stop_spec (P : Platform) (pending : Bool) (api : mc_api) (env : Handle)
    (henv : P.android_getEnv = some env) :
    (Stop P pending api).ret = VLC_SUCCESS
    ∧ (Stop P pending api).api
        = ⟨api.b_video, (if api.p_sys.codec.isSome then false else api.b_started), false,
            api.b_support_interlaced, mc_api_sys.closed⟩
    ∧ Effect.teardown (Stop P pending api).trace
        = (if api.p_sys.codec.isSome then
            (if api.b_started then [Effect.stop api.p_sys.codec, Effect.release api.p_sys.codec]
              else [Effect.release api.p_sys.codec])
          else [])
    ∧ Effect.starts (Stop P pending api).trace = []
    ∧ Effect.surfaces (Stop P pending api).trace = []
    ∧ Effect.setIntegers (Stop P pending api).trace = [] := by
  rcases api with ⟨bv, bs, bd, bi, ⟨c, b, ib, ob⟩⟩
  cases c <;> cases b <;> cases ib <;> cases ob <;> cases bs <;>
    simp [Stop, henv, Effect.teardown, Effect.starts, Effect.surfaces, Effect.setIntegers,
      mc_api_sys.closed]

/-- A call of `Stop` on a session that holds nothing makes no call and leaves the
session as it is. -/
theorem Stop_closed (P : Platform) (pending : Bool) (api : mc_api) (env : Handle)
    (henv : P.android_getEnv = some env)
    (hsys : api.p_sys = mc_api_sys.closed) (hdr : api.b_direct_rendering = false) :
    (Stop P pending api).ret = VLC_SUCCESS
    ∧ (Stop P pending api).trace = []
    ∧ (Stop P pending api).api = api := by
  rcases api with ⟨bv, bs, bd, bi, sys⟩
  simp only at hsys hdr
  subst hsys; subst hdr
  simp [Stop, henv, mc_api_sys.closed]

/-- C14: with the environment obtainable, `Stop` returns `VLC_SUCCESS`, and a
second `Stop` right after it returns `VLC_SUCCESS` too, makes no call at all (no
`MediaCodec.stop`, no `MediaCodec.release`, no deletion of a handle) and leaves
the session as the first call left it. -/
theorem Stop_idempotent (P : Platform) (pending : Bool) (api : mc_api)
    (henv : P.android_getEnv.isSome = true) :
    (Stop P pending api).ret = VLC_SUCCESS
    ∧ (Stop P (Stop P pending api).pending (Stop P pending api).api).ret = VLC_SUCCESS
    ∧ (Stop P (Stop P pending api).pending (Stop P pending api).api).trace = []
    ∧ (Stop P (Stop P pending api).pending (Stop P pending api).api).api
        = (Stop P pending api).api := by
  obtain ⟨env, henv2⟩ := Option.isSome_iff_exists.mp henv
  obtain ⟨h1, h2, _⟩ := Stop_spec P pending api env henv2
  refine ⟨h1, ?_⟩
  exact Stop_closed P _ _ env henv2 (by rw [h2]) (by rw [h2])

/-- C14, on a started session that holds a codec, both buffer arrays and the
buffer-info object. -/
theorem Stop_idempotent_witness :
    (Stop Platform.kitkat false mc_api.startedArrays).ret = VLC_SUCCESS
    ∧ (Stop Platform.kitkat (Stop Platform.kitkat false mc_api.startedArrays).pending
        (Stop Platform.kitkat false mc_api.startedArrays).api).ret = VLC_SUCCESS
    ∧ (Stop Platform.kitkat (Stop Platform.kitkat false mc_api.startedArrays).pending
        (Stop Platform.kitkat false mc_api.startedArrays).api).trace = []
    ∧ (Stop Platform.kitkat (Stop Platform.kitkat false mc_api.startedArrays).pending
        (Stop Platform.kitkat false mc_api.startedArrays).api).api
        = (Stop Platform.kitkat false mc_api.startedArrays).api :=
  Stop_idempotent Platform.kitkat false mc_api.startedArrays (by decide)

/-- C17: with the environment obtainable, `Stop` returns `VLC_SUCCESS`; it calls
`MediaCodec.stop` exactly when the session holds a codec and `b_started` is
true, and `MediaCodec.release` exactly when the session holds a codec, after
`stop` when both are called; on return the codec, both cached arrays and the
buffer-info handle are null, `b_started` is false when a codec was held and
`b_direct_rendering` is false. None of this depends on whether `stop` or
`release` raises. -/
theorem Stop_teardown (P : Platform) (pending : Bool) (api : mc_api)
    (henv : P.android_getEnv.isSome = true) :
    (Stop P pending api).ret = VLC_SUCCESS
    ∧ ((∃ c, Effect.stop c ∈ (Stop P pending api).trace)
        ↔ (api.p_sys.codec.isSome = true ∧ api.b_started = true))
    ∧ ((∃ c, Effect.release c ∈ (Stop P pending api).trace)
        ↔ api.p_sys.codec.isSome = true)
    ∧ Effect.teardown (Stop P pending api).trace
        = (if api.p_sys.codec.isSome then
            (if api.b_started then [Effect.stop api.p_sys.codec, Effect.release api.p_sys.codec]
              else [Effect.release api.p_sys.codec])
          else [])
    ∧ (Stop P pending api).api.p_sys = mc_api_sys.closed
    ∧ (api.p_sys.codec.isSome = true → (Stop P pending api).api.b_started = false)
    ∧ (Stop P pending api).api.b_direct_rendering = false
    ∧ (∀ (s r : Bool), Stop { P with stop := s, release := r } pending api
        = Stop P pending api) := by
  obtain ⟨env, henv2⟩ := Option.isSome_iff_exists.mp henv
  obtain ⟨h1, h2, h3, _⟩ := Stop_spec P pending api env henv2
  have hmem : ∀ e, e ∈ Effect.teardown (Stop P pending api).trace
      ↔ (e ∈ (Stop P pending api).trace ∧ ((∃ c, e = Effect.stop c) ∨ ∃ c, e = Effect.release c)) := by
    intro e
    unfold Effect.teardown
    rw [List.mem_filter]
    cases e <;> simp
  refine ⟨h1, ?_, ?_, h3, by rw [h2], ?_, by rw [h2], ?_⟩
  · constructor
    · rintro ⟨c, hc⟩
      have := (hmem (Effect.stop c)).mpr ⟨hc, Or.inl ⟨c, rfl⟩⟩
      rw [h3] at this
      split_ifs at this with hc1 hc2
      · exact ⟨hc1, hc2⟩
      · simp at this
      · simp at this
    · rintro ⟨hc1, hc2⟩
      refine ⟨api.p_sys.codec, ((hmem _).mp ?_).1⟩
      rw [h3]; simp [hc1, hc2]
  · constructor
    · rintro ⟨c, hc⟩
      have := (hmem (Effect.release c)).mpr ⟨hc, Or.inr ⟨c, rfl⟩⟩
      rw [h3] at this
      split_ifs at this with hc1 hc2
      · exact hc1
      · exact hc1
      · simp at this
    · intro hc1
      refine ⟨api.p_sys.codec, ((hmem _).mp ?_).1⟩
      rw [h3]
      split_ifs <;> simp
  · intro hc
    rw [h2]; simp [hc]
  · intro s r
    rfl

/-- C17, on a started session that holds everything, when `stop` and `release`
both raise. -/
theorem Stop_teardown_witness :
    (Stop { Platform.kitkat with stop := true, release := true } false
        mc_api.startedArrays).ret = VLC_SUCCESS
    ∧ (Stop { Platform.kitkat with stop := true, release := true } false
        mc_api.startedArrays).api.p_sys = mc_api_sys.closed
    ∧ (Stop { Platform.kitkat with stop := true, release := true } false
        mc_api.startedArrays).trace
        = [Effect.DeleteGlobalRef (some 14), Effect.DeleteGlobalRef (some 15),
            Effect.stop (some 10), Effect.release (some 10), Effect.DeleteGlobalRef (some 10),
            Effect.DeleteGlobalRef (some 16)] :=
  have h := Stop_teardown { Platform.kitkat with stop := true, release := true } false
    mc_api.startedArrays (by decide)
  ⟨h.1, h.2.2.2.2.1, by decide⟩

/-! ## The failure of Start -/

theorem teardown_append (a b : List Effect) :
    Effect.teardown (a ++ b) = Effect.teardown a ++ Effect.teardown b := by
  simp [Effect.teardown, List.filter_append]

theorem starts_append (a b : List Effect) :
    Effect.starts (a ++ b) = Effect.starts a ++ Effect.starts b := by
  simp [Effect.starts, List.filter_append]

theorem setIntegers_append (a b : List Effect) :
    Effect.setIntegers (a ++ b) = Effect.setIntegers a ++ Effect.setIntegers b := by
  simp [Effect.setIntegers, List.filter_append]

/-- The label `error` of `Start`, once the environment is there: the session
`Stop` leaves and the calls of `stop`, `release` and `start` of the whole trace. -/
theorem Start_error_spec (P : Platform) (pending : Bool) (api : mc_api) (tr : List Effect)
    (env : Handle) (henv : P.android_getEnv = some env) :
    (Start.error P pending api tr).api
        = ⟨api.b_video, (if api.p_sys.codec.isSome then false else api.b_started), false,
            api.b_support_interlaced, mc_api_sys.closed⟩
    ∧ Effect.teardown (Start.error P pending api tr).trace
        = Effect.teardown tr ++ (if api.p_sys.codec.isSome then
            (if api.b_started then [Effect.stop api.p_sys.codec, Effect.release api.p_sys.codec]
              else [Effect.release api.p_sys.codec])
          else [])
    ∧ Effect.starts (Start.error P pending api tr).trace = Effect.starts tr := by
  obtain ⟨_, h2, h3, h4, _⟩ := Stop_spec P pending api env henv
  unfold Start.error
  simp only [teardown_append, starts_append, h2, h3, h4, List.append_nil, and_self]

/-- A failing `Start.run` on a session that holds a codec and was not started
before: the session is closed, `start` was called, and the codec was released,
after being stopped when `start` had succeeded. -/
theorem Start_run_failure (P : Platform) (g : Globals) (api : mc_api) (b : Bool)
    (pending : Bool) (tr : List Effect) (env : Handle) (henv : P.android_getEnv = some env)
    (hs : api.b_started = false) (hc : api.p_sys.codec.isSome = true)
    (h : (Start.run P g api b pending tr).ret ≠ VLC_SUCCESS) :
    (Start.run P g api b pending tr).api.p_sys = mc_api_sys.closed
    ∧ (Start.run P g api b pending tr).api.b_started = false
    ∧ (Start.run P g api b pending tr).api.b_direct_rendering = false
    ∧ Effect.starts (Start.run P g api b pending tr).trace
        = Effect.starts tr ++ [Effect.start api.p_sys.codec]
    ∧ Effect.teardown (Start.run P g api b pending tr).trace
        = Effect.teardown tr ++ (if (pending || P.start) = true
            then [Effect.release api.p_sys.codec]
            else [Effect.stop api.p_sys.codec, Effect.release api.p_sys.codec]) := by
  cases hp : (pending || P.start) with
  | true =>
    simp only [Start.run, hp, if_true] at h ⊢
    obtain ⟨e1, e2, e3⟩ := Start_error_spec P false api (tr ++ [Effect.start api.p_sys.codec])
      env henv
    rw [e1, e2, e3]
    simp [hs, hc, teardown_append, starts_append, Effect.teardown, Effect.starts]
  | false =>
    cases hm : ((g.jfields JField.get_input_buffers).isSome
        && (g.jfields JField.get_output_buffers).isSome) with
    | false =>
      simp only [Start.run, hp, hm, Bool.false_eq_true, if_false] at h
      exact absurd rfl h
    | true =>
      cases hi : P.getInputBuffers.raised with
      | true =>
        simp only [Start.run, hp, hm, hi, Bool.false_eq_true, if_false, if_true] at h ⊢
        obtain ⟨e1, e2, e3⟩ := Start_error_spec P false { api with b_started := true }
          (tr ++ [Effect.start api.p_sys.codec] ++ [Effect.getInputBuffers api.p_sys.codec])
          env henv
        rw [e1, e2, e3]
        simp [hc, teardown_append, starts_append, Effect.teardown, Effect.starts]
      | false =>
        cases ho : P.getOutputBuffers.raised with
        | true =>
          simp only [Start.run, hp, hm, hi, ho, Bool.false_eq_true, if_false, if_true] at h ⊢
          obtain ⟨e1, e2, e3⟩ := Start_error_spec P false
            { api with b_started := true,
                       p_sys := { api.p_sys with input_buffers := P.getInputBuffers.val } }
            (tr ++ [Effect.start api.p_sys.codec] ++ [Effect.getInputBuffers api.p_sys.codec]
              ++ [Effect.getOutputBuffers api.p_sys.codec]) env henv
          rw [e1, e2, e3]
          simp [hc, teardown_append, starts_append, Effect.teardown, Effect.starts]
        | false =>
          simp only [Start.run, hp, hm, hi, ho, Bool.false_eq_true, if_false, if_true] at h
          exact absurd rfl h

/-- A failing `Start.configure` on a session that holds a codec and was not
started before. -/
theorem Start_configure_failure (P : Platform) (g : Globals) (api : mc_api) (b : Bool)
    (jformat jsurface : Option Handle) (pending : Bool) (tr : List Effect) (env : Handle)
    (henv : P.android_getEnv = some env)
    (hs : api.b_started = false) (hc : api.p_sys.codec.isSome = true)
    (h : (Start.configure P g api b jformat jsurface pending tr).ret ≠ VLC_SUCCESS) :
    (Start.configure P g api b jformat jsurface pending tr).api.p_sys = mc_api_sys.closed
    ∧ (Start.configure P g api b jformat jsurface pending tr).api.b_started = false
    ∧ (Start.configure P g api b jformat jsurface pending tr).api.b_direct_rendering = false
    ∧ Effect.starts (Start.configure P g api b jformat jsurface pending tr).trace
        = Effect.starts tr ++ (if (pending || P.configure) = true then []
            else [Effect.start api.p_sys.codec])
    ∧ Effect.teardown (Start.configure P g api b jformat jsurface pending tr).trace
        = Effect.teardown tr ++ (if (pending || P.configure) = true ∨ P.start = true
            then [Effect.release api.p_sys.codec]
            else [Effect.stop api.p_sys.codec, Effect.release api.p_sys.codec]) := by
  cases hp : (pending || P.configure) with
  | true =>
    cases b with
    | true =>
      simp only [Start.configure, hp, if_true, true_or]
      obtain ⟨e1, e2, e3⟩ := Start_error_spec P false api
        (tr ++ [Effect.configure api.p_sys.codec jformat jsurface]) env henv
      rw [e1, e2, e3]
      simp [hs, hc, teardown_append, starts_append, Effect.teardown, Effect.starts]
    | false =>
      simp only [Start.configure, hp, Bool.false_eq_true, if_false, if_true, true_or]
      obtain ⟨e1, e2, e3⟩ := Start_error_spec P false api
        (tr ++ [Effect.configure api.p_sys.codec jformat none]) env henv
      rw [e1, e2, e3]
      simp [hs, hc, teardown_append, starts_append, Effect.teardown, Effect.starts]
  | false =>
    cases b with
    | true =>
      simp only [Start.configure, hp, Bool.false_eq_true, if_false, if_true, false_or] at h ⊢
      obtain ⟨e1, e2, e3, e4, e5⟩ := Start_run_failure P g api true false
        (tr ++ [Effect.configure api.p_sys.codec jformat jsurface]) env henv hs hc h
      rw [e4, e5]
      refine ⟨e1, e2, e3, ?_, ?_⟩
      · simp [starts_append, Effect.starts]
      · simp [teardown_append, Effect.teardown]
    | false =>
      simp only [Start.configure, hp, Bool.false_eq_true, if_false, false_or] at h ⊢
      obtain ⟨e1, e2, e3, e4, e5⟩ := Start_run_failure P g api false false
        (tr ++ [Effect.configure api.p_sys.codec jformat none]) env henv hs hc h
      rw [e4, e5]
      refine ⟨e1, e2, e3, ?_, ?_⟩
      · simp [starts_append, Effect.starts]
      · simp [teardown_append, Effect.teardown]

/-- The video branch of `Start`, once the codec is created: the call of
`Start.configure` it ends with, after a trace that holds no call of `start`,
`stop` or `release` and one call of `setInteger`, whose key is null unless a
surface was obtained, the angle is not 0 and `jfields.get_input_buffer` is set. -/
theorem Start_video_eq (P : Platform) (g : Globals) (api : mc_api)
    (psz_name psz_mime : CStr) (p_args : mc_api_args) (env : Handle)
    (henv : P.android_getEnv = some env)
    (hm : P.NewStringUTF psz_mime = true) (hn : P.NewStringUTF psz_name = true)
    (hr : P.createByCodecName.raised = false) (hv : api.b_video = true) :
    ∃ (b : Bool) (pending : Bool) (tr : List Effect),
      Start P g api psz_name psz_mime p_args
        = Start.configure P g
            { api with p_sys := { api.p_sys with codec := P.createByCodecName.val } }
            b P.createVideoFormat.val (Start.jsurface P p_args) pending tr
      ∧ Effect.starts tr = [] ∧ Effect.teardown tr = []
      ∧ ∃ key : jstring,
          Effect.setIntegers tr
            = [Effect.setInteger P.createVideoFormat.val key p_args.video.i_angle]
          ∧ (key = none ∨ key = some (ascii "rotation-degrees"))
          ∧ (key ≠ none →
              (Start.jsurface P p_args).isSome = true ∧ p_args.video.i_angle ≠ 0
              ∧ (g.jfields JField.get_input_buffer).isSome = true) := by
  cases hawh : p_args.video.p_awh with
  | none =>
    refine ⟨false, P.createVideoFormat.raised || P.setInteger,
      [Effect.createByCodecName (some psz_name),
        Effect.createVideoFormat (some psz_mime) p_args.video.i_width p_args.video.i_height,
        Effect.setInteger P.createVideoFormat.val none p_args.video.i_angle], ?_, rfl, rfl,
      none, rfl, Or.inl rfl, fun h => absurd rfl h⟩
    simp [Start, Start.jsurface, henv, hm, hn, hr, hv, hawh]
  | some awh =>
    let b : Bool :=
      if (P.AWindowHandler_getSurface awh).isSome && p_args.video.i_angle != 0
          && (g.jfields JField.get_input_buffer).isNone then false
      else (P.AWindowHandler_getSurface awh).isSome
    let rotate : Bool := b && p_args.video.i_angle != 0
    refine ⟨b,
      (P.createVideoFormat.raised || (rotate && !P.NewStringUTF (ascii "rotation-degrees")))
        || P.setInteger,
      [Effect.createByCodecName (some psz_name),
        Effect.createVideoFormat (some psz_mime) p_args.video.i_width p_args.video.i_height,
        Effect.AWindowHandler_getSurface awh,
        Effect.setInteger P.createVideoFormat.val
          (if rotate && P.NewStringUTF (ascii "rotation-degrees") then
            some (ascii "rotation-degrees") else none) p_args.video.i_angle], ?_, rfl, rfl,
      _, rfl, ?_, ?_⟩
    · simp only [Start, Start.jsurface, henv, hm, hn, hr, hv, hawh, if_true,
        Bool.false_eq_true, if_false, Option.isNone_some, Bool.or_self, List.cons_append,
        List.nil_append, List.singleton_append]
    · cases (rotate && P.NewStringUTF (ascii "rotation-degrees")) <;> simp
    · intro hkey
      have hrot : rotate = true := by
        cases hrot : rotate
        · simp [hrot] at hkey
        · rfl
      simp only [rotate, b, Start.jsurface, hawh] at hrot ⊢
      cases hsurf : P.AWindowHandler_getSurface awh <;>
        cases hgib : g.jfields JField.get_input_buffer <;>
        by_cases hangle : p_args.video.i_angle = 0 <;>
        simp [hsurf, hgib, hangle] at hrot ⊢

/-- C15 as stated fails: a session entered with `b_started` already true, on
which `MediaCodec.configure` raises, is torn down by stopping and then releasing
the new codec 10, although `MediaCodec.start` was never called for it. -/
theorem Start_failure_on_started_session :
    Platform.configureRaises.android_getEnv.isSome = true
    ∧ (Start Platform.configureRaises Globals.lollipop mc_api.startedOld (ascii "OMX.x")
        (ascii "video/avc") mc_api_args.noSurface).ret = VLC_EGENERIC
    ∧ Effect.createByCodecName (some (ascii "OMX.x"))
        ∈ (Start Platform.configureRaises Globals.lollipop mc_api.startedOld (ascii "OMX.x")
            (ascii "video/avc") mc_api_args.noSurface).trace
    ∧ Effect.starts (Start Platform.configureRaises Globals.lollipop mc_api.startedOld
        (ascii "OMX.x") (ascii "video/avc") mc_api_args.noSurface).trace = []
    ∧ Effect.teardown (Start Platform.configureRaises Globals.lollipop mc_api.startedOld
        (ascii "OMX.x") (ascii "video/avc") mc_api_args.noSurface).trace
        = [Effect.stop (some 10), Effect.release (some 10)] := by
  decide

/-- C15, amended: when `Start` is entered with `b_started` false, the
environment is obtained and `createByCodecName` gives a codec whenever it does
not raise, a failing `Start` leaves the codec, both cached arrays and the
buffer-info handle null and `b_started` and `b_direct_rendering` false; if
`MediaCodec.start` was called and did not raise, the codec was stopped and then
released, and if the codec was created and `start` was not called or raised,
it was released without being stopped. -/
theorem Start_failure_teardown (P : Platform) (g : Globals) (api : mc_api)
    (psz_name psz_mime : CStr) (p_args : mc_api_args)
    (henv : P.android_getEnv.isSome = true)
    (hs : api.b_started = false)
    (hcodec : P.createByCodecName.raised = false → P.createByCodecName.val.isSome = true)
    (hfail : (Start P g api psz_name psz_mime p_args).ret ≠ VLC_SUCCESS) :
    (Start P g api psz_name psz_mime p_args).api.p_sys = mc_api_sys.closed
    ∧ (Start P g api psz_name psz_mime p_args).api.b_started = false
    ∧ (Start P g api psz_name psz_mime p_args).api.b_direct_rendering = false
    ∧ ((Effect.starts (Start P g api psz_name psz_mime p_args).trace ≠ [] ∧ P.start = false) →
        Effect.teardown (Start P g api psz_name psz_mime p_args).trace
          = [Effect.stop P.createByCodecName.val, Effect.release P.createByCodecName.val])
    ∧ ((P.NewStringUTF psz_mime = true ∧ P.NewStringUTF psz_name = true
          ∧ P.createByCodecName.raised = false
          ∧ ¬ (Effect.starts (Start P g api psz_name psz_mime p_args).trace ≠ []
                ∧ P.start = false)) →
        Effect.teardown (Start P g api psz_name psz_mime p_args).trace
          = [Effect.release P.createByCodecName.val]) := by
  obtain ⟨env, henv2⟩ := Option.isSome_iff_exists.mp henv
  cases hm : P.NewStringUTF psz_mime with
  | false =>
    obtain ⟨e1, e2, e3⟩ := Start_error_spec P true api [] env henv2
    have hS : Start P g api psz_name psz_mime p_args = Start.error P true api [] := by
      simp [Start, henv2, hm]
    rw [hS, e1, e3]
    simp [hs, Effect.starts]
  | true =>
    cases hn : P.NewStringUTF psz_name with
    | false =>
      obtain ⟨e1, e2, e3⟩ := Start_error_spec P true api [] env henv2
      have hS : Start P g api psz_name psz_mime p_args = Start.error P true api [] := by
        simp [Start, henv2, hm, hn]
      rw [hS, e1, e3]
      simp [hs, Effect.starts]
    | true =>
      cases hr : P.createByCodecName.raised with
      | true =>
        obtain ⟨e1, e2, e3⟩ := Start_error_spec P false api
          [Effect.createByCodecName (some psz_name)] env henv2
        have hS : Start P g api psz_name psz_mime p_args
            = Start.error P false api [Effect.createByCodecName (some psz_name)] := by
          simp [Start, henv2, hm, hn, hr]
        rw [hS, e1, e3]
        simp [hs, Effect.starts]
      | false =>
        have hc := hcodec hr
        cases hv : api.b_video with
        | false =>
          have hS : Start P g api psz_name psz_mime p_args
              = Start.configure P g
                  { api with p_sys := { api.p_sys with codec := P.createByCodecName.val } }
                  false P.createAudioFormat.val none P.createAudioFormat.raised
                  ([Effect.createByCodecName (some psz_name)]
                    ++ [Effect.createAudioFormat (some psz_mime) p_args.audio.i_sample_rate
                          p_args.audio.i_channel_count]) := by
            simp [Start, henv2, hm, hn, hr, hv]
          rw [hS] at hfail ⊢
          obtain ⟨e1, e2, e3, e4, e5⟩ := Start_configure_failure P g _ _ _ _ _ _ env henv2
            (by simpa using hs) (by simpa using hc) hfail
          rw [e4, e5]
          refine ⟨e1, e2, e3, ?_, ?_⟩
          · cases hp : (P.createAudioFormat.raised || P.configure) <;>
              cases hst : P.start <;> simp [Effect.starts, Effect.teardown]
          · cases hp : (P.createAudioFormat.raised || P.configure) <;>
              cases hst : P.start <;> simp [Effect.starts, Effect.teardown]
        | true =>
          obtain ⟨b, pending, tr, hS, htr1, htr2, _⟩ := Start_video_eq P g api psz_name
            psz_mime p_args env henv2 hm hn hr hv
          rw [hS] at hfail ⊢
          obtain ⟨e1, e2, e3, e4, e5⟩ := Start_configure_failure P g _ _ _ _ _ _ env henv2
            (by simpa using hs) (by simpa using hc) hfail
          rw [e4, e5, htr1, htr2]
          refine ⟨e1, e2, e3, ?_, ?_⟩
          · cases hp : (pending || P.configure) <;> cases hst : P.start <;> simp
          · cases hp : (pending || P.configure) <;> cases hst : P.start <;> simp

/-- C15, amended, for a fresh video session on which `MediaCodec.configure`
raises: the codec is released without being stopped. -/
theorem Start_failure_teardown_witness :
    (Start Platform.configureRaises Globals.lollipop mc_api.video0 (ascii "OMX.x")
        (ascii "video/avc") mc_api_args.noSurface).ret ≠ VLC_SUCCESS
    ∧ (Start Platform.configureRaises Globals.lollipop mc_api.video0 (ascii "OMX.x")
        (ascii "video/avc") mc_api_args.noSurface).api.p_sys = mc_api_sys.closed
    ∧ Effect.teardown (Start Platform.configureRaises Globals.lollipop mc_api.video0
        (ascii "OMX.x") (ascii "video/avc") mc_api_args.noSurface).trace
        = [Effect.release (some 10)] :=
  have h := Start_failure_teardown Platform.configureRaises Globals.lollipop mc_api.video0
    (ascii "OMX.x") (ascii "video/avc") mc_api_args.noSurface (by decide) (by decide)
    (by decide) (by decide)
  ⟨by decide, h.1, h.2.2.2.2 (by decide)⟩

/-! ## The exceptions and the rotation key in Start -/

/-- C16: when the construction of the buffer-info object raises and every other
call succeeds, `Start` returns `VLC_SUCCESS`: no `CHECK_EXCEPTION()` follows
`NewObject`. The session is left started, with a null buffer-info handle and
the exception still pending. -/
theorem Start_buffer_info_unchecked :
    Platform.bufferInfoRaises.NewObject.raised = true
    ∧ Effect.NewObject ∈ (Start Platform.bufferInfoRaises Globals.lollipop mc_api.video0
        (ascii "OMX.x") (ascii "video/avc") mc_api_args.noSurface).trace
    ∧ (Start Platform.bufferInfoRaises Globals.lollipop mc_api.video0 (ascii "OMX.x")
        (ascii "video/avc") mc_api_args.noSurface).ret = VLC_SUCCESS
    ∧ (Start Platform.bufferInfoRaises Globals.lollipop mc_api.video0 (ascii "OMX.x")
        (ascii "video/avc") mc_api_args.noSurface).pending = true
    ∧ (Start Platform.bufferInfoRaises Globals.lollipop mc_api.video0 (ascii "OMX.x")
        (ascii "video/avc") mc_api_args.noSurface).api.b_started = true
    ∧ (Start Platform.bufferInfoRaises Globals.lollipop mc_api.video0 (ascii "OMX.x")
        (ascii "video/avc") mc_api_args.noSurface).api.p_sys.buffer_info = none := by
  decide

/-- C18: for a video session of 1280 by 720 with no rotation and no surface,
on which direct rendering is therefore disabled, `Start` calls `setInteger` on
the format once, with a null key and the value 0: the call follows the `if`
that makes the key without being part of it. -/
theorem Start_setInteger_null_key :
    mc_api_args.noSurface.video.i_angle = 0
    ∧ (Start Platform.lollipop Globals.lollipop mc_api.video0 (ascii "OMX.x")
        (ascii "video/avc") mc_api_args.noSurface).ret = VLC_SUCCESS
    ∧ (Start Platform.lollipop Globals.lollipop mc_api.video0 (ascii "OMX.x")
        (ascii "video/avc") mc_api_args.noSurface).api.b_direct_rendering = false
    ∧ Effect.setIntegers (Start Platform.lollipop Globals.lollipop mc_api.video0
        (ascii "OMX.x") (ascii "video/avc") mc_api_args.noSurface).trace
        = [Effect.setInteger (some 11) none 0] := by
  decide

/-! ## What holds of the exceptions and of the rotation key -/

/-- A successful `Start.run` found no exception at `start` nor, when the arrays
are cached, at `getInputBuffers` and `getOutputBuffers`. -/
theorem Start_run_no_raise (P : Platform) (g : Globals) (api : mc_api) (b : Bool)
    (pending : Bool) (tr : List Effect)
    (h : (Start.run P g api b pending tr).ret = VLC_SUCCESS) :
    pending = false ∧ P.start = false
    ∧ (((g.jfields JField.get_input_buffers).isSome
          && (g.jfields JField.get_output_buffers).isSome) = true →
        P.getInputBuffers.raised = false ∧ P.getOutputBuffers.raised = false) := by
  cases hp : pending <;> cases hst : P.start <;>
    cases hm : ((g.jfields JField.get_input_buffers).isSome
        && (g.jfields JField.get_output_buffers).isSome) <;>
    cases hi : P.getInputBuffers.raised <;> cases ho : P.getOutputBuffers.raised <;>
    simp [Start.run, Start.error, hp, hst, hm, hi, ho, VLC_EGENERIC, VLC_SUCCESS] at h ⊢

/-- A successful `Start.configure` found no exception at `configure` either. -/
theorem Start_configure_no_raise (P : Platform) (g : Globals) (api : mc_api) (b : Bool)
    (jformat jsurface : Option Handle) (pending : Bool) (tr : List Effect)
    (h : (Start.configure P g api b jformat jsurface pending tr).ret = VLC_SUCCESS) :
    pending = false ∧ P.configure = false ∧ P.start = false
    ∧ (((g.jfields JField.get_input_buffers).isSome
          && (g.jfields JField.get_output_buffers).isSome) = true →
        P.getInputBuffers.raised = false ∧ P.getOutputBuffers.raised = false) := by
  cases hp : pending <;> cases hc : P.configure <;> cases b <;>
    simp only [Start.configure, hp, hc, Bool.false_eq_true, if_false, if_true, Bool.or_self,
      Bool.or_true, Bool.true_or, Bool.or_false] at h
  all_goals
    first
      | exact absurd h VLC_EGENERIC_ne_SUCCESS
      | (obtain ⟨_, h2, h3⟩ := Start_run_no_raise P g api _ false _ h
         exact ⟨rfl, rfl, h2, h3⟩)

/-- The calls that are followed by an exception check, or whose exception the
next check finds, all abort `Start`: when `Start` returns `VLC_SUCCESS`, neither
the creation of the codec, nor the creation of the format, nor `setInteger`,
nor `configure`, nor `start`, nor the fetch of the buffer arrays has raised. -/
theorem Start_success_no_raise (P : Platform) (g : Globals) (api : mc_api)
    (psz_name psz_mime : CStr) (p_args : mc_api_args)
    (h : (Start P g api psz_name psz_mime p_args).ret = VLC_SUCCESS) :
    P.createByCodecName.raised = false
    ∧ (api.b_video = true → P.createVideoFormat.raised = false ∧ P.setInteger = false)
    ∧ (api.b_video = false → P.createAudioFormat.raised = false)
    ∧ P.configure = false ∧ P.start = false
    ∧ (((g.jfields JField.get_input_buffers).isSome
          && (g.jfields JField.get_output_buffers).isSome) = true →
        P.getInputBuffers.raised = false ∧ P.getOutputBuffers.raised = false) := by
  cases henv : P.android_getEnv with
  | none =>
    simp only [Start, henv] at h
    exact absurd h VLC_EGENERIC_ne_SUCCESS
  | some env =>
    cases hm : P.NewStringUTF psz_mime with
    | false =>
      have hS : Start P g api psz_name psz_mime p_args = Start.error P true api [] := by
        simp [Start, henv, hm]
      rw [hS] at h
      exact absurd h VLC_EGENERIC_ne_SUCCESS
    | true =>
      cases hn : P.NewStringUTF psz_name with
      | false =>
        have hS : Start P g api psz_name psz_mime p_args = Start.error P true api [] := by
          simp [Start, henv, hm, hn]
        rw [hS] at h
        exact absurd h VLC_EGENERIC_ne_SUCCESS
      | true =>
        cases hr : P.createByCodecName.raised with
        | true =>
          have hS : Start P g api psz_name psz_mime p_args
              = Start.error P false api [Effect.createByCodecName (some psz_name)] := by
            simp [Start, henv, hm, hn, hr]
          rw [hS] at h
          exact absurd h VLC_EGENERIC_ne_SUCCESS
        | false =>
          cases hv : api.b_video with
          | false =>
            have hS : Start P g api psz_name psz_mime p_args
                = Start.configure P g
                    { api with p_sys := { api.p_sys with codec := P.createByCodecName.val } }
                    false P.createAudioFormat.val none P.createAudioFormat.raised
                    ([Effect.createByCodecName (some psz_name)]
                      ++ [Effect.createAudioFormat (some psz_mime) p_args.audio.i_sample_rate
                            p_args.audio.i_channel_count]) := by
              simp [Start, henv, hm, hn, hr, hv]
            rw [hS] at h
            obtain ⟨h1, h2, h3, h4⟩ := Start_configure_no_raise P g _ _ _ _ _ _ h
            exact ⟨rfl, by simp, fun _ => h1, h2, h3, h4⟩
          | true =>
            simp only [Start, henv, hm, hn, hr, hv, if_true, Bool.false_eq_true, if_false,
              Option.isNone_some, Bool.or_self] at h
            obtain ⟨h1, h2, h3, h4⟩ := Start_configure_no_raise P g _ _ _ _ _ _ h
            simp only [Bool.or_eq_false_iff] at h1
            exact ⟨rfl, fun _ => ⟨h1.1.1, h1.2⟩, by simp, h2, h3, h4⟩

theorem Start_error_setIntegers (P : Platform) (pending : Bool) (api : mc_api)
    (tr : List Effect) (env : Handle) (henv : P.android_getEnv = some env) :
    Effect.setIntegers (Start.error P pending api tr).trace = Effect.setIntegers tr := by
  obtain ⟨_, _, _, _, _, h6⟩ := Stop_spec P pending api env henv
  unfold Start.error
  simp only [setIntegers_append, h6, List.append_nil]

theorem Start_run_setIntegers (P : Platform) (g : Globals) (api : mc_api) (b : Bool)
    (pending : Bool) (tr : List Effect) (env : Handle) (henv : P.android_getEnv = some env) :
    Effect.setIntegers (Start.run P g api b pending tr).trace = Effect.setIntegers tr := by
  cases hp : (pending || P.start) <;>
    cases hm : ((g.jfields JField.get_input_buffers).isSome
        && (g.jfields JField.get_output_buffers).isSome) <;>
    cases hi : P.getInputBuffers.raised <;> cases ho : P.getOutputBuffers.raised <;>
    simp only [Start.run, hp, hm, hi, ho, Bool.false_eq_true, if_false, if_true,
      Start_error_setIntegers P _ _ _ env henv] <;>
    simp [setIntegers_append, Effect.setIntegers]

theorem Start_configure_setIntegers (P : Platform) (g : Globals) (api : mc_api) (b : Bool)
    (jformat jsurface : Option Handle) (pending : Bool) (tr : List Effect) (env : Handle)
    (henv : P.android_getEnv = some env) :
    Effect.setIntegers (Start.configure P g api b jformat jsurface pending tr).trace
      = Effect.setIntegers tr := by
  cases hp : (pending || P.configure) <;> cases b <;>
    simp only [Start.configure, hp, Bool.false_eq_true, if_false, if_true,
      Start_error_setIntegers P _ _ _ env henv, Start_run_setIntegers P g _ _ _ _ env henv] <;>
    simp [setIntegers_append, Effect.setIntegers]

/-- Once the codec of a video session is created, `Start` calls `setInteger` on
the format exactly once, whatever happens next; the key is "rotation-degrees"
or null, and it is null unless a surface was obtained, `i_angle` is not 0 and
`jfields.get_input_buffer` is set. -/
theorem Start_setInteger_always (P : Platform) (g : Globals) (api : mc_api)
    (psz_name psz_mime : CStr) (p_args : mc_api_args)
    (henv : P.android_getEnv.isSome = true)
    (hm : P.NewStringUTF psz_mime = true) (hn : P.NewStringUTF psz_name = true)
    (hr : P.createByCodecName.raised = false) (hv : api.b_video = true) :
    ∃ key : jstring,
      Effect.setIntegers (Start P g api psz_name psz_mime p_args).trace
        = [Effect.setInteger P.createVideoFormat.val key p_args.video.i_angle]
      ∧ (key = none ∨ key = some (ascii "rotation-degrees"))
      ∧ (key ≠ none →
          (Start.jsurface P p_args).isSome = true ∧ p_args.video.i_angle ≠ 0
          ∧ (g.jfields JField.get_input_buffer).isSome = true) := by
  obtain ⟨env, henv2⟩ := Option.isSome_iff_exists.mp henv
  obtain ⟨b, pending, tr, hS, _, _, key, hk1, hk2, hk3⟩ := Start_video_eq P g api psz_name
    psz_mime p_args env henv2 hm hn hr hv
  refine ⟨key, ?_, hk2, hk3⟩
  rw [hS, Start_configure_setIntegers P g _ _ _ _ _ _ env henv2, hk1]

end MediaCodecJni
